import Mathlib

/-!
Shallow embedding of the idea-classification core of the collab-app
repository (src/lib/services/embeddings.ts, src/lib/services/auto-classification.ts,
src/lib/utils/cache.ts, src/lib/db/queries/buckets.ts and the two bucket API
routes), together with proofs settling the frozen specification claims.

Modelling conventions:
- JavaScript numbers are modelled as real numbers.
- A thrown JavaScript exception is an `Except.error` value; `try/catch` is a
  match on that value.  State (database rows, the in-memory cache, the clock
  and an id counter) is threaded explicitly through every operation, so an
  operation has type `... → World → Except JsErr A × World`; mutations made
  before a throw survive it, exactly as in the source.
- External collaborators (the embedding provider and the three LLM prompt
  operations) are an `Env` of oracle outcomes: one `Except` value per
  operation, covering in a single error both a transport failure and a
  response whose JSON the two-stage parser rejects.  The storage collaborator
  (Supabase) is modelled as reliable: its reads and writes are pure state
  operations that do not throw.
- Diagnostic side effects of the source (console logs, cost counters,
  classification metric counters) influence no control flow and are omitted.
-/

namespace CollabApp

/-- Exceptions that can cross a function boundary in the modelled code. -/
inductive JsErr where
  | typeError : JsErr
  | thrown : String → JsErr
deriving DecidableEq, Repr

/-- A bucket row (src/lib/types/database, columns used by the classifier). -/
structure Bucket where
  id : String
  plan_id : String
  title : String
  description : Option String
  accent_color : String
  display_order : ℤ
  embedding : Option (List ℝ)

/-- An idea row (fields used by the classifier). -/
structure Idea where
  id : String
  plan_id : String
  title : String
  description : Option String
  bucket_id : Option String
  confidence : ℤ

/-- The contract returned to callers of classifyIdeaIntoBucket. -/
structure ClassificationResult where
  bucketId : String
  confidence : ℤ
  isNewBucket : Bool
deriving DecidableEq, Repr

/-- bucketId -> embedding map, in Map insertion order (embeddings.ts). -/
abbrev BucketEmbeddingMap := List (String × List ℝ)

/-- One entry of the in-memory TTL cache of cache.ts, specialised to the one
value type stored by the classifier: (key, data, expires). -/
abbrev CacheEntry := String × BucketEmbeddingMap × ℤ

/-- The mutable state visible to the modelled code: database rows, the
module-level cache Map of cache.ts, the clock read by Date.now, and a
fresh-id source standing for the ids generated by the database. -/
structure World where
  buckets : List Bucket
  ideas : List Idea
  cache : List CacheEntry
  now : ℤ
  nextId : ℕ

/-- JavaScript array indexing with an integer index: valid only for
0 <= i < length, undefined otherwise. -/
def jsIndex {α : Type} (l : List α) (i : ℤ) : Option α :=
  if 0 ≤ i then l.get? i.toNat else none

/-- The JavaScript or-else on a string: empty strings are falsy. -/
def jsStrOr (s d : String) : String := if s = "" then d else s

/-- Whitespace stripped by String.prototype.trim (ASCII portion). -/
def isWsChar (c : Char) : Bool := c == ' ' || c == '\t' || c == '\n' || c == '\r'

/-- String.prototype.trim: strip leading and trailing whitespace. -/
def jsTrim (s : String) : String :=
  String.mk (((s.toList.dropWhile isWsChar).reverse.dropWhile isWsChar).reverse)

-- ---- cache.ts --------------------------------------------------------------

/-- Lookup in the cache Map. -/
def cacheLookup (c : List CacheEntry) (key : String) : Option (BucketEmbeddingMap × ℤ) :=
  (c.find? (fun e => e.1 == key)).map (fun e => e.2)

/-- Map.delete. -/
def cacheDelete (c : List CacheEntry) (key : String) : List CacheEntry :=
  c.filter (fun e => !(e.1 == key))

/-- Map.set.  The source Map preserves the position of an overwritten key;
entry order is never observed by the modelled code, so the entry is simply
placed in front. -/
def cacheSet (c : List CacheEntry) (key : String) (d : BucketEmbeddingMap) (exp : ℤ) : List CacheEntry :=
  (key, d, exp) :: cacheDelete c key

/-- getCached of cache.ts: an expired entry (Date.now() > expires) is deleted
and reported missing. -/
def getCached (w : World) (key : String) : Option BucketEmbeddingMap × World :=
  match cacheLookup w.cache key with
  | none => (none, w)
  | some (d, exp) =>
    if exp < w.now then (none, { w with cache := cacheDelete w.cache key })
    else (some d, w)

/-- setCache of cache.ts: stores with expires = Date.now() + ttlMs. -/
def setCache (w : World) (key : String) (d : BucketEmbeddingMap) (ttlMs : ℤ) : World :=
  { w with cache := cacheSet w.cache key d (w.now + ttlMs) }

/-- invalidateCache of cache.ts. -/
def invalidateCache (w : World) (key : String) : World :=
  { w with cache := cacheDelete w.cache key }

-- ---- db/queries/buckets.ts -------------------------------------------------

/-- Ids handed out by the database for inserted rows. -/
def mkBucketId (n : ℕ) : String := "bucket-" ++ toString n

/-- createBucket: insert a row and return it (storage modelled as reliable). -/
def createBucket (w : World) (planId title : String) (description : Option String)
    (accent : String) (displayOrder : ℤ) (embedding : Option (List ℝ)) : Bucket × World :=
  let b : Bucket :=
    { id := mkBucketId w.nextId, plan_id := planId, title := title,
      description := description, accent_color := accent,
      display_order := displayOrder, embedding := embedding }
  (b, { w with buckets := w.buckets ++ [b], nextId := w.nextId + 1 })

/-- updateBucket specialised to the embedding column (the only update the
classification service itself issues). -/
def updateBucketEmbedding (w : World) (id : String) (v : List ℝ) : World :=
  { w with buckets := w.buckets.map (fun b => if b.id == id then { b with embedding := some v } else b) }

/-- updateIdea specialised to the assignment patch { bucket_id, confidence }
issued by the classification service. -/
def updateIdeaAssign (w : World) (ideaId bucketId : String) (conf : ℤ) : World :=
  { w with ideas := w.ideas.map (fun j => if j.id == ideaId then { j with bucket_id := some bucketId, confidence := conf } else j) }

/-- Ascending insertion by display_order (order among equal keys is not
specified by the database either). -/
def insertByOrder (b : Bucket) : List Bucket → List Bucket
  | [] => [b]
  | x :: xs => if b.display_order < x.display_order then b :: x :: xs else x :: insertByOrder b xs

/-- Sort used to model the ORDER BY display_order ASC of listBucketsByPlanId. -/
def sortByDisplayOrder : List Bucket → List Bucket
  | [] => []
  | b :: rest => insertByOrder b (sortByDisplayOrder rest)

/-- listBucketsByPlanId: rows of the plan, ordered by display_order. -/
def listBucketsByPlanId (w : World) (planId : String) : List Bucket :=
  sortByDisplayOrder (w.buckets.filter (fun b => b.plan_id == planId))

/-- getNextDisplayOrder: one more than the highest display_order, 0 when the
plan has no buckets. -/
def getNextDisplayOrder (w : World) (planId : String) : ℤ :=
  match (w.buckets.filter (fun b => b.plan_id == planId)).map (fun b => b.display_order) with
  | [] => 0
  | o :: rest => (rest.foldl max o) + 1

-- ---- embeddings.ts: vector math -------------------------------------------

/-- The single-pass loop of cosineSimilarity accumulating dot, normA and
normB: the dot product of the common prefix of two lists. -/
def dotList (a b : List ℝ) : ℝ := (List.zipWith (fun x y => x * y) a b).sum

/-- cosineSimilarity of embeddings.ts.  Both inputs must have exactly the
expected dimension 1536 or the function throws; a zero norm on either side
yields 0; otherwise the value is dot / (sqrt normA * sqrt normB). -/
noncomputable def cosineSimilarity (a b : List ℝ) : Except JsErr ℝ :=
  if a.length ≠ 1536 ∨ b.length ≠ 1536 then
    .error (.thrown "Cannot compute cosine similarity for vectors of unexpected length")
  else if a.length ≠ b.length then
    .error (.thrown "Cannot compute cosine similarity for vectors of different length")
  else
    let dot := dotList a b
    let normA := dotList a a
    let normB := dotList b b
    if normA = 0 ∨ normB = 0 then .ok 0
    else .ok (dot / (Real.sqrt normA * Real.sqrt normB))

/-- validateVectorDimension of db/pgvector. -/
def validateVectorDimension (v : Option (List ℝ)) (expectedDim : ℕ) : Bool :=
  match v with
  | none => false
  | some l => l.length == expectedDim

-- ---- auto-classification.ts: constants and confidence mapping --------------

/-- MIN_SIMILARITY constant of auto-classification.ts. -/
noncomputable def MIN_SIMILARITY : ℝ := 0.35

/-- TIE_THRESHOLD constant of auto-classification.ts. -/
noncomputable def TIE_THRESHOLD : ℝ := 0.05

/-- similarityToConfidence of auto-classification.ts: 35 at or below
MIN_SIMILARITY, otherwise the rounded linear map of [0.35, 1] onto [35, 95],
clamped into [35, 95].  Math.round(x) is the floor of x + 1/2, which is the
Mathlib round. -/
noncomputable def similarityToConfidence (similarity : ℝ) : ℤ :=
  if similarity ≤ MIN_SIMILARITY then 35
  else max 35 (min 95 (round ((35 : ℝ) + (similarity - MIN_SIMILARITY) * (95 - 35) / (1 - MIN_SIMILARITY))))

-- ---- auto-classification.ts: pattern-match fallback ------------------------

/-- Characters kept by the tokenizer: the regex class [a-z0-9] applied to
lower-cased text. -/
def keepChar (c : Char) : Bool := (('a' ≤ c) && (c ≤ 'z')) || (('0' ≤ c) && (c ≤ '9'))

/-- Splitting on runs of non-alphanumeric characters, dropping empty tokens:
text.split(/[^a-z0-9]+/g).filter(Boolean). -/
def splitWords : List Char → List Char → List String
  | [], acc => if acc.isEmpty then [] else [String.mk acc.reverse]
  | c :: cs, acc =>
    if keepChar c then splitWords cs (c :: acc)
    else if acc.isEmpty then splitWords cs []
    else String.mk acc.reverse :: splitWords cs []

/-- Lower-case then tokenize, as both extractBucketPatterns and
attemptPatternMatch do. -/
def tokenize (s : String) : List String := splitWords (s.toList.map Char.toLower) []

/-- Deduplication keeping first occurrences: Array.from(new Set(xs)). -/
def dedupFirst (seen : List String) : List String → List String
  | [] => []
  | x :: xs => if x ∈ seen then dedupFirst seen xs else x :: dedupFirst (x :: seen) xs

/-- The stopword set of extractBucketPatterns. -/
def stopwords : List String :=
  ["the", "and", "or", "for", "to", "of", "in", "on", "at", "a", "an", "ideas", "general"]

/-- The keyword profile of one bucket. -/
structure BucketPattern where
  bucketId : String
  bucketTitle : String
  keywords : List String
deriving DecidableEq, Repr

/-- extractBucketPatterns of auto-classification.ts. -/
def extractBucketPatterns (buckets : List Bucket) : List BucketPattern :=
  buckets.map (fun bucket =>
    let text := bucket.title ++ " " ++ bucket.description.getD ""
    let rawWords := tokenize text
    let keywords := dedupFirst []
      (rawWords.filter (fun word => decide (3 ≤ word.length) && !(stopwords.contains word)))
    { bucketId := bucket.id, bucketTitle := bucket.title, keywords := keywords })

/-- The non-null result shape of attemptPatternMatch. -/
structure PatternMatch where
  bucketId : String
  confidence : ℤ
deriving DecidableEq, Repr

/-- The token list of the idea text used for keyword membership tests (the
source builds a Set, which only changes duplicate handling, not membership). -/
def ideaWords (idea : Idea) : List String :=
  tokenize (idea.title ++ " " ++ idea.description.getD "")

/-- The per-bucket keyword hit count of attemptPatternMatch. -/
def hitCount (words : List String) (p : BucketPattern) : ℕ :=
  p.keywords.countP (fun keyword => words.contains keyword)

/-- The confidence heuristic min(50 + 10 * hits, 90). -/
def hitConfidence (hits : ℕ) : ℤ := min (50 + 10 * (hits : ℤ)) 90

/-- One iteration of the bestMatch loop of attemptPatternMatch: buckets with
at least one hit compete, a strictly higher confidence replaces the current
best. -/
def patternStep (words : List String) (best : Option PatternMatch) (p : BucketPattern) : Option PatternMatch :=
  let score := hitCount words p
  if 0 < score then
    let conf := hitConfidence score
    match best with
    | none => some { bucketId := p.bucketId, confidence := conf }
    | some bm => if bm.confidence < conf then some { bucketId := p.bucketId, confidence := conf } else some bm
  else best

/-- attemptPatternMatch of auto-classification.ts: the best-scoring bucket,
but only when its confidence reaches 70. -/
def attemptPatternMatch (idea : Idea) (patterns : List BucketPattern) : Option PatternMatch :=
  match patterns.foldl (patternStep (ideaWords idea)) none with
  | some bm => if 70 ≤ bm.confidence then some bm else none
  | none => none

-- ---- external collaborators -----------------------------------------------

/-- A bucket proposal object returned by the model.  A missing title is the
empty string (both are falsy in the source checks). -/
structure NewBucketSpec where
  title : String
  description : Option String
  accent_color : String

/-- The JSON object shape classifyWithLLM expects from the model after
extractJsonObject succeeds.  Absent JSON fields are `none`; the typeof-number
check on existing_bucket_number is the `isSome` of the option. -/
structure LLMClassifyResp where
  action : String
  existing_bucket_number : Option ℤ
  new_bucket : Option NewBucketSpec
  confidence : Option ℤ

/-- The JSON object shape of the tie-breaker response. -/
structure TieBreakResp where
  chosen_bucket_number : Option ℤ

/-- One element of the JSON array shape of the emergent-buckets response. -/
structure EmergentSpec where
  title : String
  description : Option String
  accent_color : String
  idea_assignments : List ℤ

/-- Outcomes of the external collaborators for one classification request.
Each field is the end-to-end outcome of one prompt operation: transport
failure, a non-text response and a two-stage JSON parse failure are all the
error case.  generateEmbedding (embed field) is keyed by the exact string the
caller passes; its error case covers empty input, a missing credential and
provider failure.  Each LLM operation is invoked at most once per request, so
a single outcome per operation loses no generality. -/
structure Env where
  useEmbeddings : Bool
  embed : String → Except JsErr (List ℝ)
  llmClassify : Except JsErr LLMClassifyResp
  llmTieBreak : Except JsErr TieBreakResp
  llmNewBucket : Except JsErr NewBucketSpec
  llmEmergent : Except JsErr (List EmergentSpec)

-- ---- embeddings.ts: bucket embedding cache ---------------------------------

/-- Cache key prefix of embeddings.ts applied to a plan id. -/
def bucketCacheKey (planId : String) : String := "bucket-embeddings:" ++ planId

/-- BUCKET_CACHE_TTL_MS = 5 minutes. -/
def BUCKET_CACHE_TTL_MS : ℤ := 5 * 60 * 1000

/-- buildBucketEmbeddingText: title and description joined by a newline
(description omitted when absent or empty), trimmed. -/
def buildBucketEmbeddingText (b : Bucket) : String :=
  jsTrim (match b.description with
   | some d => if d = "" then b.title else b.title ++ "\n" ++ d
   | none => b.title)

/-- The regeneration branch of the getBucketEmbeddingsCached loop: skip
buckets with empty text, skip buckets whose embedding generation fails,
persist on success and add the vector to the map only when its dimension is
1536. -/
def regenerateEntry (env : Env) (b : Bucket) (w : World) : Option (String × List ℝ) × World :=
  let text := buildBucketEmbeddingText b
  if text = "" then (none, w)
  else
    match env.embed text with
    | .error _ => (none, w)
    | .ok v =>
      let w1 := updateBucketEmbedding w b.id v
      if v.length = 1536 then (some (b.id, v), w1) else (none, w1)

/-- Per-bucket body of the getBucketEmbeddingsCached loop: reuse a stored
embedding of valid dimension (the validateVectorDimension check), otherwise
regenerate from the bucket text. -/
def bucketMapStep (env : Env) (b : Bucket) (w : World) : Option (String × List ℝ) × World :=
  match b.embedding with
  | some v =>
    if v.length = 1536 then (some (b.id, v), w)
    else regenerateEntry env b w
  | none => regenerateEntry env b w

/-- The full loop of getBucketEmbeddingsCached over the plan buckets,
building the map in iteration order. -/
def buildBucketMap (env : Env) (buckets : List Bucket) (w : World) : BucketEmbeddingMap × World :=
  match buckets with
  | [] => ([], w)
  | b :: rest =>
    match bucketMapStep env b w with
    | (entry, w1) =>
      let (m, w2) := buildBucketMap env rest w1
      (match entry with
       | some e => e :: m
       | none => m, w2)

/-- getBucketEmbeddingsCached of embeddings.ts: serve the cached map when
present, otherwise build the map from storage and cache it for five minutes
unconditionally. -/
def getBucketEmbeddingsCached (env : Env) (planId : String) (w : World) : BucketEmbeddingMap × World :=
  let key := bucketCacheKey planId
  match getCached w key with
  | (some m, w1) => (m, w1)
  | (none, w1) =>
    let (m, w2) := buildBucketMap env (listBucketsByPlanId w1 planId) w1
    (m, setCache w2 key m BUCKET_CACHE_TTL_MS)

/-- Lookup in a BucketEmbeddingMap (Map.get). -/
def mapLookup (m : BucketEmbeddingMap) (key : String) : Option (List ℝ) :=
  (m.find? (fun e => e.1 == key)).map (fun e => e.2)

-- ---- auto-classification.ts: LLM operations --------------------------------

/-- The template literal building the text a created bucket is embedded from:
title, then a newline and the description when the description is truthy,
trimmed. -/
def bucketHeaderText (b : Bucket) : String :=
  jsTrim (match b.description with
   | some d => if d = "" then b.title else b.title ++ "\n" ++ d
   | none => b.title)

/-- The best-effort try block generating and persisting an embedding for a
just-created bucket, returning the (possibly re-read) bucket: failures are
swallowed. -/
def bestEffortEmbed (env : Env) (b : Bucket) (w : World) : Bucket × World :=
  let text := bucketHeaderText b
  if text = "" then (b, w)
  else
    match env.embed text with
    | .error _ => (b, w)
    | .ok v => ({ b with embedding := some v }, updateBucketEmbedding w b.id v)

/-- The catch block of classifyWithLLM: try the pattern-match fallback, then
default to the first existing bucket with confidence 40.  Accessing element 0
of an empty bucket list throws a TypeError that leaves the function. -/
def classifyWithLLMCatch (idea : Idea) (existingBuckets : List Bucket) (w : World) :
    Except JsErr ClassificationResult × World :=
  match attemptPatternMatch idea (extractBucketPatterns existingBuckets) with
  | some pm => (.ok { bucketId := pm.bucketId, confidence := pm.confidence, isNewBucket := false }, w)
  | none =>
    match existingBuckets with
    | b0 :: _ => (.ok { bucketId := b0.id, confidence := 40, isNewBucket := false }, w)
    | [] => (.error .typeError, w)

/-- The try block of classifyWithLLM: the single-shot
assign-existing-or-create-new prompt and the handling of its parsed
response. -/
def classifyWithLLMTry (env : Env) (idea : Idea) (existingBuckets : List Bucket) (w : World) :
    Except JsErr ClassificationResult × World :=
  match env.llmClassify with
    | .error e => (.error e, w)
    | .ok result =>
      if result.action = "assign_existing" then
        match result.existing_bucket_number with
        | some n =>
          match jsIndex existingBuckets (n - 1) with
          | some bucket => (.ok { bucketId := bucket.id, confidence := result.confidence.getD 70, isNewBucket := false }, w)
          | none =>
            match existingBuckets with
            | b0 :: _ => (.ok { bucketId := b0.id, confidence := result.confidence.getD 70, isNewBucket := false }, w)
            | [] => (.error .typeError, w)
        | none =>
          match existingBuckets with
          | b0 :: _ => (.ok { bucketId := b0.id, confidence := 40, isNewBucket := false }, w)
          | [] => (.error .typeError, w)
      else if result.action = "create_new" then
        match result.new_bucket with
        | some spec =>
          let cb := createBucket w idea.plan_id spec.title spec.description
            (jsStrOr spec.accent_color "gray") (existingBuckets.length : ℤ) none
          let be := bestEffortEmbed env cb.1 cb.2
          (.ok { bucketId := be.1.id, confidence := result.confidence.getD 75, isNewBucket := true },
            invalidateCache be.2 (bucketCacheKey idea.plan_id))
        | none =>
          match existingBuckets with
          | b0 :: _ => (.ok { bucketId := b0.id, confidence := 40, isNewBucket := false }, w)
          | [] => (.error .typeError, w)
      else
        match existingBuckets with
        | b0 :: _ => (.ok { bucketId := b0.id, confidence := 40, isNewBucket := false }, w)
        | [] => (.error .typeError, w)

/-- classifyWithLLM of auto-classification.ts: the try block, with any throw
routed to the catch block (which inherits the state mutated so far). -/
def classifyWithLLM (env : Env) (idea : Idea) (existingBuckets : List Bucket) (w : World) :
    Except JsErr ClassificationResult × World :=
  match classifyWithLLMTry env idea existingBuckets w with
  | (.ok r, w1) => (.ok r, w1)
  | (.error _, w1) => classifyWithLLMCatch idea existingBuckets w1

/-- A bucket with its similarity score, transient per classification call. -/
structure ScoredBucket where
  bucket : Bucket
  similarity : ℝ

/-- classifyWithLLMTieBreaker of auto-classification.ts, returning the id of
the chosen bucket.  A singleton tie list short-circuits; an out-of-range or
missing chosen_bucket_number and any LLM failure default to the first
(highest-similarity) tied bucket. -/
def classifyWithLLMTieBreaker (env : Env) (tiedBuckets : List ScoredBucket) (w : World) :
    Except JsErr String × World :=
  match tiedBuckets with
  | [] => (.error .typeError, w)
  | t :: rest =>
    if rest.length = 0 then (.ok t.bucket.id, w)
    else
      match env.llmTieBreak with
      | .error _ => (.ok t.bucket.id, w)
      | .ok r =>
        let index : ℤ := match r.chosen_bucket_number with
          | some n => n - 1
          | none => 0
        match jsIndex (t :: rest) index with
        | some chosen => (.ok chosen.bucket.id, w)
        | none => (.ok t.bucket.id, w)

/-- createNewBucketForIdea of auto-classification.ts: the new-category
proposal; confidence 75 on success, falling back to classifyWithLLM on any
failure (including a missing title in the proposal). -/
def createNewBucketForIdea (env : Env) (idea : Idea) (existingBuckets : List Bucket) (w : World) :
    Except JsErr (String × ℤ) × World :=
  let fallback : World → Except JsErr (String × ℤ) × World := fun w0 =>
    match classifyWithLLM env idea existingBuckets w0 with
    | (.ok r, w1) => (.ok (r.bucketId, r.confidence), w1)
    | (.error e, w1) => (.error e, w1)
  match env.llmNewBucket with
  | .error _ => fallback w
  | .ok spec =>
    if spec.title = "" then fallback w
    else
      let cb := createBucket w idea.plan_id spec.title spec.description
        (jsStrOr spec.accent_color "gray") (existingBuckets.length : ℤ) none
      let be := bestEffortEmbed env cb.1 cb.2
      (.ok (be.1.id, 75), invalidateCache be.2 (bucketCacheKey idea.plan_id))

-- ---- auto-classification.ts: emergent bucket creation ----------------------

/-- The inner idea-assignment loop of createEmergentBuckets: 1-based indices
into the batch; indices out of range are skipped. -/
def assignIdeas (ideas : List Idea) (assignments : List ℤ) (bucketId : String) (w : World) : World :=
  match assignments with
  | [] => w
  | idx :: rest =>
    let w1 := match jsIndex ideas (idx - 1) with
      | some idea => updateIdeaAssign w idea.id bucketId 90
      | none => w
    assignIdeas ideas rest bucketId w1

/-- The bucket-creation loop of createEmergentBuckets over the parsed specs:
skips titleless specs, creates a bucket per spec with the loop index as
display order, best-effort generates and persists its embedding (recording
whether any succeeded), and assigns the listed ideas with confidence 90. -/
def emergentLoop (env : Env) (planId : String) (ideas : List Idea)
    (specs : List EmergentSpec) (i : ℕ) (w : World) : (List Bucket × Bool) × World :=
  match specs with
  | [] => (([], false), w)
  | spec :: rest =>
    if spec.title = "" then emergentLoop env planId ideas rest (i + 1) w
    else
      let (bucket, w1) := createBucket w planId spec.title spec.description
        (jsStrOr spec.accent_color "gray") (i : ℤ) none
      let (flag1, w2) :=
        let text := bucketHeaderText bucket
        if text = "" then (false, w1)
        else
          match env.embed text with
          | .error _ => (false, w1)
          | .ok v => (true, updateBucketEmbedding w1 bucket.id v)
      let w3 := assignIdeas ideas spec.idea_assignments bucket.id w2
      match emergentLoop env planId ideas rest (i + 1) w3 with
      | ((bs, flag2), w4) => ((bucket :: bs, flag1 || flag2), w4)

/-- The catch-block loop assigning every batch idea to the General fallback
bucket with confidence 50. -/
def assignAllIdeas (ideas : List Idea) (bucketId : String) (w : World) : World :=
  match ideas with
  | [] => w
  | j :: rest => assignAllIdeas rest bucketId (updateIdeaAssign w j.id bucketId 50)

/-- createEmergentBuckets of auto-classification.ts.  The try block creates
the proposed buckets (invalidating the plan cache entry only when at least
one embedding was persisted); any failure in it routes to the catch block,
which creates the General bucket and assigns every idea to it. -/
def createEmergentBuckets (env : Env) (planId : String) (ideas : List Idea) (w : World) :
    Except JsErr (List Bucket) × World :=
  let attempt : Except JsErr (List Bucket) × World :=
    match env.llmEmergent with
    | .error e => (.error e, w)
    | .ok specs =>
      if specs.length = 0 then (.error (.thrown "LLM returned empty bucket list"), w)
      else
        match emergentLoop env planId ideas specs 0 w with
        | ((created, updated), w1) =>
          let w2 := if updated then invalidateCache w1 (bucketCacheKey planId) else w1
          if created.length = 0 then (.error (.thrown "No buckets were created from LLM specs"), w2)
          else (.ok created, w2)
  match attempt with
  | (.ok bs, w1) => (.ok bs, w1)
  | (.error _, w1) =>
    let (fb, w2) := createBucket w1 planId "General" (some "Uncategorized ideas") "gray" 0 none
    let w3 := assignAllIdeas ideas fb.id w2
    (.ok [fb], w3)

-- ---- auto-classification.ts: embeddings-first classifier -------------------

/-- The scoring loop of classifyIdeaIntoBucket: buckets without a cached
vector are skipped, and a cosineSimilarity throw (dimension mismatch) drops
that bucket with a logged warning. -/
noncomputable def scoreBuckets (ideaEmbedding : List ℝ) (bucketEmbeddings : BucketEmbeddingMap)
    (existingBuckets : List Bucket) : List ScoredBucket :=
  existingBuckets.filterMap (fun bucket =>
    match mapLookup bucketEmbeddings bucket.id with
    | none => none
    | some v =>
      match cosineSimilarity ideaEmbedding v with
      | .ok s => some { bucket := bucket, similarity := s }
      | .error _ => none)

/-- Stable insertion for the descending in-place sort
scored.sort((a, b) => b.similarity - a.similarity). -/
noncomputable def insertScoredDesc (x : ScoredBucket) : List ScoredBucket → List ScoredBucket
  | [] => [x]
  | y :: ys => if y.similarity ≤ x.similarity then x :: y :: ys else y :: insertScoredDesc x ys

/-- Stable descending sort by similarity (the source sort is stable and its
comparator orders by similarity descending). -/
noncomputable def sortScoredDesc : List ScoredBucket → List ScoredBucket
  | [] => []
  | x :: xs => insertScoredDesc x (sortScoredDesc xs)

/-- The tie set: every scored bucket within TIE_THRESHOLD of the best score,
with an inclusive boundary. -/
noncomputable def tieSet (sorted : List ScoredBucket) (bestSim : ℝ) : List ScoredBucket :=
  sorted.filter (fun entry => decide (bestSim - entry.similarity ≤ TIE_THRESHOLD))

/-- The decision portion of classifyIdeaIntoBucket on the sorted score list:
below MIN_SIMILARITY create a new bucket, a tie set larger than one goes to
the LLM tie-breaker, otherwise the clear winner is returned with the mapped
confidence. -/
noncomputable def routeScored (env : Env) (idea : Idea) (existingBuckets : List Bucket)
    (sorted : List ScoredBucket) (w : World) : Except JsErr ClassificationResult × World :=
  match sorted with
  | [] => (.error .typeError, w)
  | best :: _ =>
    if best.similarity < MIN_SIMILARITY then
      match createNewBucketForIdea env idea existingBuckets w with
      | (.ok r, w1) => (.ok { bucketId := r.1, confidence := r.2, isNewBucket := true }, w1)
      | (.error e, w1) => (.error e, w1)
    else
      let tied := tieSet sorted best.similarity
      if 1 < tied.length then
        match classifyWithLLMTieBreaker env tied w with
        | (.ok tieId, w1) =>
          let chosen := (sorted.find? (fun s => s.bucket.id == tieId)).getD best
          (.ok { bucketId := chosen.bucket.id, confidence := similarityToConfidence chosen.similarity, isNewBucket := false }, w1)
        | (.error e, w1) => (.error e, w1)
      else
        (.ok { bucketId := best.bucket.id, confidence := similarityToConfidence best.similarity, isNewBucket := false }, w)

/-- The try block of classifyIdeaIntoBucket: fetch cached bucket embeddings
(an empty map falls back to classifyWithLLM), embed the idea text, score the
buckets (no scorable bucket falls back to classifyWithLLM), sort and decide. -/
noncomputable def classifyEmbeddingPath (env : Env) (idea : Idea) (existingBuckets : List Bucket)
    (w : World) : Except JsErr ClassificationResult × World :=
  match getBucketEmbeddingsCached env idea.plan_id w with
  | (bucketEmbeddings, w1) =>
    if bucketEmbeddings.length = 0 then classifyWithLLM env idea existingBuckets w1
    else
      let ideaText := idea.title ++ "\n" ++ idea.description.getD ""
      match env.embed ideaText with
      | .error e => (.error e, w1)
      | .ok ideaEmbedding =>
        let scored := scoreBuckets ideaEmbedding bucketEmbeddings existingBuckets
        if scored.length = 0 then classifyWithLLM env idea existingBuckets w1
        else routeScored env idea existingBuckets (sortScoredDesc scored) w1

/-- classifyIdeaIntoBucket of auto-classification.ts: LLM-only when
embeddings are disabled or the plan has no buckets, otherwise the embedding
path with a catch-all fallback to classifyWithLLM. -/
noncomputable def classifyIdeaIntoBucket (env : Env) (idea : Idea) (existingBuckets : List Bucket)
    (w : World) : Except JsErr ClassificationResult × World :=
  if env.useEmbeddings = false ∨ existingBuckets.length = 0 then
    classifyWithLLM env idea existingBuckets w
  else
    match classifyEmbeddingPath env idea existingBuckets w with
    | (.ok r, w1) => (.ok r, w1)
    | (.error _, w1) => classifyWithLLM env idea existingBuckets w1

-- ---- API routes ------------------------------------------------------------

/-- POST /api/plans/:id/buckets (validated body): best-effort embedding for
the new bucket, create it (embedding included when available), then
invalidate the plan cache entry. -/
def postBucketsRoute (env : Env) (planId title : String) (description : Option String)
    (accentColor : Option String) (w : World) : Bucket × World :=
  let displayOrder := getNextDisplayOrder w planId
  let desc : Option String := match description with
    | some d => if d = "" then none else some d
    | none => none
  let accent := match accentColor with
    | some a => jsStrOr a "gray"
    | none => "gray"
  let text := jsTrim (match desc with
    | some d => title ++ "\n" ++ d
    | none => title)
  let emb : Option (List ℝ) :=
    if text = "" then none
    else
      match env.embed text with
      | .error _ => none
      | .ok v => some v
  let cb := createBucket w planId title desc accent displayOrder emb
  (cb.1, invalidateCache cb.2 (bucketCacheKey planId))

/-- The title and description patch of PATCH /api/buckets/:id applied to a
bucket row. -/
def applyBucketPatch (titlePatch descPatch : Option String) (b : Bucket) : Bucket :=
  { b with
    title := titlePatch.getD b.title,
    description := match descPatch with
      | some d => some d
      | none => b.description }

/-- updateBucket of db/queries/buckets.ts: applies a field update to the row
and returns the updated row, throwing NotFoundError when the id is absent. -/
def updateBucket (w : World) (id : String) (f : Bucket → Bucket) : Except JsErr (Bucket × World) :=
  match w.buckets.find? (fun b => b.id == id) with
  | none => .error (.thrown "Bucket not found")
  | some b =>
    let b2 := f b
    .ok (b2, { w with buckets := w.buckets.map (fun x => if x.id == id then b2 else x) })

/-- PATCH /api/buckets/:id (validated body, title and description fields):
update the row, and when title or description was in the patch, best-effort
regenerate the embedding and invalidate the plan cache entry. -/
def patchBucketRoute (env : Env) (bucketId : String) (titlePatch descPatch : Option String)
    (w : World) : Except JsErr Bucket × World :=
  match updateBucket w bucketId (applyBucketPatch titlePatch descPatch) with
  | .error e => (.error e, w)
  | .ok (bucket, w1) =>
    if titlePatch.isSome || descPatch.isSome then
      let reg : Bucket × World :=
        if bucketHeaderText bucket = "" then (bucket, w1)
        else
          match env.embed (bucketHeaderText bucket) with
          | .error _ => (bucket, w1)
          | .ok v =>
            match updateBucket w1 bucketId (fun b => { b with embedding := some v }) with
            | .error _ => (bucket, w1)
            | .ok bw => bw
      (.ok reg.1, invalidateCache reg.2 (bucketCacheKey reg.1.plan_id))
    else (.ok bucket, w1)

-- ---- concrete instances used by witnesses and counterexamples --------------

/-- A 1536-dimensional all-ones vector. -/
def onesVec : List ℝ := List.replicate 1536 1

/-- A 1536-dimensional zero vector. -/
def zerosVec : List ℝ := List.replicate 1536 0

/-- An environment in which every external collaborator fails. -/
def envDown : Env :=
  { useEmbeddings := true,
    embed := fun _ => .error (.thrown "provider down"),
    llmClassify := .error (.thrown "provider down"),
    llmTieBreak := .error (.thrown "provider down"),
    llmNewBucket := .error (.thrown "provider down"),
    llmEmergent := .error (.thrown "provider down") }

/-- A minimal idea. -/
def ideaA : Idea :=
  { id := "i1", plan_id := "p1", title := "x", description := none,
    bucket_id := none, confidence := 85 }

/-- An empty starting world. -/
def worldA : World :=
  { buckets := [], ideas := [], cache := [], now := 0, nextId := 0 }

/-- An idea whose text contains two keywords of patternBeach. -/
def ideaBeach : Idea :=
  { id := "i2", plan_id := "p1", title := "beach day", description := none,
    bucket_id := none, confidence := 85 }

/-- A keyword profile with two keywords hitting ideaBeach. -/
def patternBeach : BucketPattern :=
  { bucketId := "b1", bucketTitle := "Beach", keywords := ["beach", "day"] }

/-- A concrete existing bucket. -/
def bucketB : Bucket :=
  { id := "b9", plan_id := "p1", title := "Food", description := none,
    accent_color := "blue", display_order := 0, embedding := none }

/-- A parsed LLM classification response assigning to bucket number 5 of a
one-bucket list: out of range. -/
def respOutOfRange : LLMClassifyResp :=
  { action := "assign_existing", existing_bucket_number := some 5,
    new_bucket := none, confidence := some 88 }

/-- An environment whose classify prompt yields respOutOfRange. -/
def envNine : Env := { envDown with llmClassify := Except.ok respOutOfRange }

/-- A second concrete bucket with a distinct id. -/
def bucketC : Bucket :=
  { id := "b10", plan_id := "p1", title := "Drinks", description := none,
    accent_color := "teal", display_order := 1, embedding := none }

/-- A scored bucket at similarity 0.6. -/
noncomputable def scoredX : ScoredBucket := { bucket := bucketB, similarity := 0.6 }

/-- A scored bucket at similarity 0.55: exactly TIE_THRESHOLD below scoredX. -/
noncomputable def scoredY : ScoredBucket := { bucket := bucketC, similarity := 0.55 }

/-- A scored bucket strictly below MIN_SIMILARITY. -/
noncomputable def scoredLow : ScoredBucket := { bucket := bucketB, similarity := 0.3 }

/-- An environment whose tie-breaker picks tied bucket number 2. -/
def envTie : Env :=
  { envDown with llmTieBreak := Except.ok { chosen_bucket_number := some 2 } }

/-- A new-category proposal returned by the model. -/
def specNew : NewBucketSpec :=
  { title := "Trips", description := none, accent_color := "green" }

/-- An environment whose new-category proposal succeeds with specNew. -/
def envNew : Env := { envDown with llmNewBucket := Except.ok specNew }

/-- A world whose cache holds a valid empty map for plan p1 while the plan
has one bucket in storage. -/
def worldHit : World :=
  { buckets := [bucketB], ideas := [],
    cache := [("bucket-embeddings:p1", [], 100)], now := 0, nextId := 0 }

/-- A bucket-less world holding a live cache entry for plan p1. -/
def worldStale : World :=
  { buckets := [], ideas := [],
    cache := [("bucket-embeddings:p1", [], 100)], now := 0, nextId := 0 }

/-- An environment whose embedding provider succeeds with a vector derived
from the input text (dimension 1536). -/
noncomputable def envEmbed : Env :=
  { envDown with embed := fun t => Except.ok ((t.length : ℝ) :: List.replicate 1535 0) }

/-- The vector envEmbed produces for the text of the title Food. -/
noncomputable def vFood : List ℝ := (((jsTrim "Food").length : ℕ) : ℝ) :: List.replicate 1535 0

/-- The vector envEmbed produces for the text of the title Drinks. -/
noncomputable def vDrinks : List ℝ := (((jsTrim "Drinks").length : ℕ) : ℝ) :: List.replicate 1535 0

-- =====================  THEOREMS  ===========================================

-- ---- helper lemmas about dotList -------------------------------------------

theorem dotList_cons (x y : ℝ) (a b : List ℝ) :
    dotList (x :: a) (y :: b) = x * y + dotList a b := by
  simp [dotList]

theorem dotList_self_nonneg (a : List ℝ) : 0 ≤ dotList a a := by
  induction a with
  | nil => simp [dotList]
  | cons x a ih =>
    rw [dotList_cons]
    have := mul_self_nonneg x
    linarith

theorem dotList_eq_sum (a : List ℝ) : ∀ b : List ℝ, a.length = b.length →
    dotList a b = ∑ i ∈ Finset.range a.length, a.getD i 0 * b.getD i 0 := by
  induction a with
  | nil => intro b _; simp [dotList]
  | cons x a ih =>
    intro b h
    cases b with
    | nil => simp at h
    | cons y b =>
      simp only [List.length_cons] at h
      rw [dotList_cons, List.length_cons, Finset.sum_range_succ']
      simp only [List.getD_cons_succ, List.getD_cons_zero]
      rw [ih b (Nat.succ_injective h)]
      ring

theorem abs_dotList_le (a b : List ℝ) (h : a.length = b.length) :
    |dotList a b| ≤ Real.sqrt (dotList a a) * Real.sqrt (dotList b b) := by
  have hself : ∀ c : List ℝ, dotList c c = ∑ i ∈ Finset.range c.length, c.getD i 0 ^ 2 := by
    intro c
    rw [dotList_eq_sum c c rfl]
    exact Finset.sum_congr rfl (fun i _ => (sq (c.getD i 0)).symm)
  have hb : dotList a b = ∑ i ∈ Finset.range a.length, a.getD i 0 * b.getD i 0 :=
    dotList_eq_sum a b h
  have hpos := Real.sum_mul_le_sqrt_mul_sqrt (Finset.range a.length)
    (fun i => a.getD i 0) (fun i => b.getD i 0)
  have hneg := Real.sum_mul_le_sqrt_mul_sqrt (Finset.range a.length)
    (fun i => -(a.getD i 0)) (fun i => b.getD i 0)
  simp only [neg_mul, Finset.sum_neg_distrib, neg_sq] at hneg
  have hbb : (∑ i ∈ Finset.range a.length, b.getD i 0 ^ 2) =
      ∑ i ∈ Finset.range b.length, b.getD i 0 ^ 2 := by rw [h]
  rw [abs_le]
  constructor
  · rw [hb, hself a, hself b, ← hbb]
    linarith
  · rw [hb, hself a, hself b, ← hbb]
    linarith

theorem dotList_zeros (n : ℕ) : dotList (List.replicate n (0 : ℝ)) (List.replicate n 0) = 0 := by
  induction n with
  | zero => simp [dotList]
  | succ k ih => simpa [List.replicate_succ, dotList_cons] using ih

/-- Claim C3 counterexample: the claim says cosineSimilarity fails only when
the two lengths differ, but two equal-length vectors of dimension 2 make it
throw, because the code enforces the exact dimension 1536 on both inputs. -/
theorem cosineSimilarity_equal_length_error :
    cosineSimilarity [(1 : ℝ), 0] [(0 : ℝ), 1] =
      Except.error (JsErr.thrown "Cannot compute cosine similarity for vectors of unexpected length") ∧
    ([(1 : ℝ), 0]).length = ([(0 : ℝ), 1]).length := by
  constructor
  · have hg : ([(1 : ℝ), 0]).length ≠ 1536 ∨ ([(0 : ℝ), 1]).length ≠ 1536 :=
      Or.inl (by norm_num)
    rw [cosineSimilarity, if_pos hg]
  · rfl

/-- Claim C3 (amended): cosineSimilarity fails exactly when either input does
not have dimension 1536; on two 1536-dimensional inputs it returns a value in
[-1, 1], and returns 0 (not an error) when either input has zero norm. -/
theorem cosineSimilarity_guard_and_range (a b : List ℝ) :
    (a.length = 1536 → b.length = 1536 →
      (∃ r, cosineSimilarity a b = Except.ok r ∧ -1 ≤ r ∧ r ≤ 1) ∧
      (dotList a a = 0 ∨ dotList b b = 0 → cosineSimilarity a b = Except.ok 0)) ∧
    (a.length ≠ 1536 ∨ b.length ≠ 1536 →
      cosineSimilarity a b =
        Except.error (JsErr.thrown "Cannot compute cosine similarity for vectors of unexpected length")) := by
  constructor
  · intro ha hb
    have hg : ¬ (a.length ≠ 1536 ∨ b.length ≠ 1536) := by simp [ha, hb]
    have hl : ¬ (a.length ≠ b.length) := by simp [ha, hb]
    constructor
    · by_cases hz : dotList a a = 0 ∨ dotList b b = 0
      · refine ⟨0, ?_, by norm_num, by norm_num⟩
        rw [cosineSimilarity, if_neg hg, if_neg hl]
        simp only [hz, if_pos]
      · push_neg at hz
        have hA : 0 < dotList a a := lt_of_le_of_ne (dotList_self_nonneg a) (Ne.symm hz.1)
        have hB : 0 < dotList b b := lt_of_le_of_ne (dotList_self_nonneg b) (Ne.symm hz.2)
        have hD : 0 < Real.sqrt (dotList a a) * Real.sqrt (dotList b b) :=
          mul_pos (Real.sqrt_pos.2 hA) (Real.sqrt_pos.2 hB)
        have habs : |dotList a b| ≤ Real.sqrt (dotList a a) * Real.sqrt (dotList b b) :=
          abs_dotList_le a b (ha.trans hb.symm)
        have hzn : ¬ (dotList a a = 0 ∨ dotList b b = 0) := by
          push_neg
          exact hz
        refine ⟨dotList a b / (Real.sqrt (dotList a a) * Real.sqrt (dotList b b)), ?_, ?_, ?_⟩
        · rw [cosineSimilarity, if_neg hg, if_neg hl]
          exact if_neg hzn
        · have : |dotList a b / (Real.sqrt (dotList a a) * Real.sqrt (dotList b b))| ≤ 1 := by
            rw [abs_div, abs_of_pos hD]
            exact (div_le_one hD).2 habs
          linarith [(abs_le.1 this).1]
        · have : |dotList a b / (Real.sqrt (dotList a a) * Real.sqrt (dotList b b))| ≤ 1 := by
            rw [abs_div, abs_of_pos hD]
            exact (div_le_one hD).2 habs
          linarith [(abs_le.1 this).2]
    · intro hz
      rw [cosineSimilarity, if_neg hg, if_neg hl]
      exact if_pos hz
  · intro hg
    rw [cosineSimilarity, if_pos hg]

/-- Witness for the amended C3 theorem at two concrete 1536-dimensional
inputs: the all-ones vectors give a value in [-1, 1], and the zero vectors
give 0 rather than an error. -/
theorem cosineSimilarity_guard_and_range_witness :
    (∃ r, cosineSimilarity onesVec onesVec = Except.ok r ∧ -1 ≤ r ∧ r ≤ 1) ∧
    cosineSimilarity zerosVec zerosVec = Except.ok 0 :=
  ⟨((cosineSimilarity_guard_and_range onesVec onesVec).1
      (by rw [onesVec, List.length_replicate]) (by rw [onesVec, List.length_replicate])).1,
   ((cosineSimilarity_guard_and_range zerosVec zerosVec).1
      (by rw [zerosVec, List.length_replicate]) (by rw [zerosVec, List.length_replicate])).2
     (Or.inl (dotList_zeros 1536))⟩

-- ---- claim C4 --------------------------------------------------------------

theorem similarityToConfidence_raw_mono {s t : ℝ} (hst : s ≤ t) :
    round ((35 : ℝ) + (s - MIN_SIMILARITY) * (95 - 35) / (1 - MIN_SIMILARITY)) ≤
    round ((35 : ℝ) + (t - MIN_SIMILARITY) * (95 - 35) / (1 - MIN_SIMILARITY)) := by
  have hden : (0 : ℝ) < 1 - MIN_SIMILARITY := by norm_num [MIN_SIMILARITY]
  have hraw : (35 : ℝ) + (s - MIN_SIMILARITY) * (95 - 35) / (1 - MIN_SIMILARITY) ≤
      (35 : ℝ) + (t - MIN_SIMILARITY) * (95 - 35) / (1 - MIN_SIMILARITY) := by
    have h1 : (s - MIN_SIMILARITY) * (95 - 35) ≤ (t - MIN_SIMILARITY) * (95 - 35) := by
      nlinarith
    have h2 := (div_le_div_iff_of_pos_right hden).2 h1
    linarith
  rw [round_eq, round_eq]
  exact Int.floor_mono (by linarith)

/-- Claim C4: similarityToConfidence is monotonically non-decreasing, always
within [35, 95], equals 35 exactly whenever the similarity is at most
MIN_SIMILARITY, and above that is the clamped rounded linear map of
[MIN_SIMILARITY, 1] onto [35, 95]. -/
theorem similarityToConfidence_monotone_bounded (s t : ℝ) (hst : s ≤ t) :
    similarityToConfidence s ≤ similarityToConfidence t ∧
    (35 ≤ similarityToConfidence s ∧ similarityToConfidence s ≤ 95) ∧
    (s ≤ MIN_SIMILARITY → similarityToConfidence s = 35) ∧
    (MIN_SIMILARITY < s →
      similarityToConfidence s =
        max 35 (min 95 (round ((35 : ℝ) + (s - MIN_SIMILARITY) * (95 - 35) / (1 - MIN_SIMILARITY))))) := by
  refine ⟨?_, ?_, ?_, ?_⟩
  · by_cases hs : s ≤ MIN_SIMILARITY
    · by_cases ht : t ≤ MIN_SIMILARITY
      · simp [similarityToConfidence, hs, ht]
      · simp only [similarityToConfidence, if_pos hs, if_neg ht]
        exact le_max_left _ _
    · have ht : ¬ t ≤ MIN_SIMILARITY := fun h => hs (hst.trans h)
      simp only [similarityToConfidence, if_neg hs, if_neg ht]
      exact max_le_max (le_refl 35)
        (min_le_min (le_refl 95) (similarityToConfidence_raw_mono hst))
  · by_cases hs : s ≤ MIN_SIMILARITY
    · simp [similarityToConfidence, hs]
    · simp only [similarityToConfidence, if_neg hs]
      exact ⟨le_max_left _ _, max_le (by norm_num) (min_le_left _ _)⟩
  · intro hs
    simp [similarityToConfidence, hs]
  · intro hs
    simp [similarityToConfidence, not_le.2 hs]

/-- Witness for C4 at the concrete pair 1/4 ≤ 1/2: the theorem applied there
yields confidence 35 for the below-threshold input. -/
theorem similarityToConfidence_monotone_bounded_witness :
    similarityToConfidence (1 / 4) = 35 :=
  (similarityToConfidence_monotone_bounded (1 / 4) (1 / 2) (by norm_num)).2.2.1
    (by norm_num [MIN_SIMILARITY])

-- ---- claim C7 --------------------------------------------------------------

theorem patternStep_zero {words : List String} {p : BucketPattern}
    (h : ¬ 0 < hitCount words p) (acc : Option PatternMatch) :
    patternStep words acc p = acc := by
  simp [patternStep, h]

theorem patternStep_pos_none {words : List String} {p : BucketPattern}
    (h : 0 < hitCount words p) :
    patternStep words none p =
      some { bucketId := p.bucketId, confidence := hitConfidence (hitCount words p) } := by
  simp [patternStep, h]

theorem patternStep_pos_some_lt {words : List String} {p : BucketPattern} {bm0 : PatternMatch}
    (h : 0 < hitCount words p) (hlt : bm0.confidence < hitConfidence (hitCount words p)) :
    patternStep words (some bm0) p =
      some { bucketId := p.bucketId, confidence := hitConfidence (hitCount words p) } := by
  simp [patternStep, h, hlt]

theorem patternStep_pos_some_ge {words : List String} {p : BucketPattern} {bm0 : PatternMatch}
    (h : 0 < hitCount words p) (hge : ¬ bm0.confidence < hitConfidence (hitCount words p)) :
    patternStep words (some bm0) p = some bm0 := by
  simp [patternStep, h, hge]

theorem patternFold_none (words : List String) (ps : List BucketPattern) :
    ∀ acc, (ps.foldl (patternStep words) acc = none ↔
      acc = none ∧ ∀ p ∈ ps, hitCount words p = 0) := by
  induction ps with
  | nil => intro acc; simp
  | cons p rest ih =>
    intro acc
    rw [List.foldl_cons, ih]
    by_cases h0 : 0 < hitCount words p
    · constructor
      · rintro ⟨hnone, -⟩
        exfalso
        cases acc with
        | none => rw [patternStep_pos_none h0] at hnone; exact Option.noConfusion hnone
        | some bm0 =>
          by_cases hlt : bm0.confidence < hitConfidence (hitCount words p)
          · rw [patternStep_pos_some_lt h0 hlt] at hnone; exact Option.noConfusion hnone
          · rw [patternStep_pos_some_ge h0 hlt] at hnone; exact Option.noConfusion hnone
      · rintro ⟨-, hall⟩
        exact absurd (hall p (List.mem_cons_self p rest)) (by omega)
    · rw [patternStep_zero h0]
      constructor
      · rintro ⟨hnone, hall⟩
        refine ⟨hnone, fun q hq => ?_⟩
        rcases List.mem_cons.1 hq with rfl | hq'
        · omega
        · exact hall q hq'
      · rintro ⟨hnone, hall⟩
        exact ⟨hnone, fun q hq => hall q (List.mem_cons_of_mem p hq)⟩

theorem patternFold_some (words : List String) (ps : List BucketPattern) :
    ∀ acc bm, ps.foldl (patternStep words) acc = some bm →
      (acc = some bm ∨ ∃ p ∈ ps, 0 < hitCount words p ∧
         bm = { bucketId := p.bucketId, confidence := hitConfidence (hitCount words p) }) ∧
      (∀ a, acc = some a → a.confidence ≤ bm.confidence) ∧
      (∀ p ∈ ps, 0 < hitCount words p → hitConfidence (hitCount words p) ≤ bm.confidence) := by
  induction ps with
  | nil =>
    intro acc bm h
    simp only [List.foldl_nil] at h
    refine ⟨Or.inl h, fun a ha => ?_, by simp⟩
    rw [h] at ha
    rw [Option.some.inj ha]
  | cons p rest ih =>
    intro acc bm h
    rw [List.foldl_cons] at h
    by_cases h0 : 0 < hitCount words p
    · cases hacc : acc with
      | none =>
        rw [hacc, patternStep_pos_none h0] at h
        obtain ⟨hA, hB, hC⟩ := ih _ bm h
        refine ⟨?_, ?_, ?_⟩
        · right
          rcases hA with hA | ⟨q, hq, hqpos, hqeq⟩
          · exact ⟨p, List.mem_cons_self p rest, h0, (Option.some.inj hA).symm⟩
          · exact ⟨q, List.mem_cons_of_mem p hq, hqpos, hqeq⟩
        · intro a ha
          exact Option.noConfusion ha
        · intro q hq hqpos
          rcases List.mem_cons.1 hq with rfl | hq'
          · simpa using hB _ rfl
          · exact hC q hq' hqpos
      | some bm0 =>
        by_cases hlt : bm0.confidence < hitConfidence (hitCount words p)
        · rw [hacc, patternStep_pos_some_lt h0 hlt] at h
          obtain ⟨hA, hB, hC⟩ := ih _ bm h
          refine ⟨?_, ?_, ?_⟩
          · right
            rcases hA with hA | ⟨q, hq, hqpos, hqeq⟩
            · exact ⟨p, List.mem_cons_self p rest, h0, (Option.some.inj hA).symm⟩
            · exact ⟨q, List.mem_cons_of_mem p hq, hqpos, hqeq⟩
          · intro a ha
            have ha2 := Option.some.inj ha
            have h2 : hitConfidence (hitCount words p) ≤ bm.confidence := by
              simpa using hB _ rfl
            rw [← ha2]
            omega
          · intro q hq hqpos
            rcases List.mem_cons.1 hq with rfl | hq'
            · simpa using hB _ rfl
            · exact hC q hq' hqpos
        · rw [hacc, patternStep_pos_some_ge h0 hlt] at h
          obtain ⟨hA, hB, hC⟩ := ih _ bm h
          refine ⟨?_, ?_, ?_⟩
          · rcases hA with hA | ⟨q, hq, hqpos, hqeq⟩
            · exact Or.inl hA
            · right; exact ⟨q, List.mem_cons_of_mem p hq, hqpos, hqeq⟩
          · intro a ha
            have ha2 := Option.some.inj ha
            have h2 : bm0.confidence ≤ bm.confidence := hB _ rfl
            rw [← ha2]
            exact h2
          · intro q hq hqpos
            rcases List.mem_cons.1 hq with rfl | hq'
            · have h2 : bm0.confidence ≤ bm.confidence := hB _ rfl
              have h3 : hitConfidence (hitCount words q) ≤ bm0.confidence := not_lt.1 hlt
              omega
            · exact hC q hq' hqpos
    · rw [patternStep_zero h0] at h
      obtain ⟨hA, hB, hC⟩ := ih acc bm h
      refine ⟨?_, hB, ?_⟩
      · rcases hA with hA | ⟨q, hq, hqpos, hqeq⟩
        · exact Or.inl hA
        · exact Or.inr ⟨q, List.mem_cons_of_mem p hq, hqpos, hqeq⟩
      · intro q hq hqpos
        rcases List.mem_cons.1 hq with rfl | hq'
        · exact absurd hqpos h0
        · exact hC q hq' hqpos

/-- Claim C7: attemptPatternMatch scores by keyword hits, a bucket with at
least one hit competes with confidence min(50 + 10 hits, 90), the winner is a
best-scoring hit bucket, it is returned only when its confidence reaches 70,
and otherwise the result is null. -/
theorem attemptPatternMatch_spec (idea : Idea) (patterns : List BucketPattern) :
    (∀ bm, attemptPatternMatch idea patterns = some bm →
       70 ≤ bm.confidence ∧
       (∃ p ∈ patterns, 0 < hitCount (ideaWords idea) p ∧
          bm.bucketId = p.bucketId ∧
          bm.confidence = hitConfidence (hitCount (ideaWords idea) p)) ∧
       (∀ p ∈ patterns, 0 < hitCount (ideaWords idea) p →
          hitConfidence (hitCount (ideaWords idea) p) ≤ bm.confidence)) ∧
    (attemptPatternMatch idea patterns = none →
       ∀ p ∈ patterns, 0 < hitCount (ideaWords idea) p →
         hitConfidence (hitCount (ideaWords idea) p) < 70) := by
  constructor
  · intro bm h
    unfold attemptPatternMatch at h
    cases hf : patterns.foldl (patternStep (ideaWords idea)) none with
    | none => rw [hf] at h; exact Option.noConfusion h
    | some bm1 =>
      rw [hf] at h
      dsimp only at h
      by_cases h70 : 70 ≤ bm1.confidence
      · rw [if_pos h70] at h
        obtain rfl : bm1 = bm := Option.some.inj h
        obtain ⟨hA, hB, hC⟩ := patternFold_some (ideaWords idea) patterns none bm1 hf
        rcases hA with hA | ⟨p, hp, hppos, hpeq⟩
        · exact Option.noConfusion hA
        · refine ⟨h70, ⟨p, hp, hppos, ?_, ?_⟩, hC⟩
          · rw [hpeq]
          · rw [hpeq]
      · rw [if_neg h70] at h
        exact Option.noConfusion h
  · intro h p hp hpos
    unfold attemptPatternMatch at h
    cases hf : patterns.foldl (patternStep (ideaWords idea)) none with
    | none =>
      have h2 := ((patternFold_none (ideaWords idea) patterns none).1 hf).2 p hp
      omega
    | some bm1 =>
      rw [hf] at h
      dsimp only at h
      by_cases h70 : 70 ≤ bm1.confidence
      · rw [if_pos h70] at h
        exact Option.noConfusion h
      · obtain ⟨hA, hB, hC⟩ := patternFold_some (ideaWords idea) patterns none bm1 hf
        have h2 := hC p hp hpos
        omega

/-- Witness for C7 at a concrete idea and pattern list: two keyword hits give
confidence min(50 + 20, 90) = 70, which reaches the threshold, so the bucket
is returned and is a best-scoring hit bucket. -/
theorem attemptPatternMatch_spec_witness :
    70 ≤ (PatternMatch.mk "b1" 70).confidence ∧
    (∃ p ∈ [patternBeach], 0 < hitCount (ideaWords ideaBeach) p ∧
       (PatternMatch.mk "b1" 70).bucketId = p.bucketId ∧
       (PatternMatch.mk "b1" 70).confidence = hitConfidence (hitCount (ideaWords ideaBeach) p)) ∧
    (∀ p ∈ [patternBeach], 0 < hitCount (ideaWords ideaBeach) p →
       hitConfidence (hitCount (ideaWords ideaBeach) p) ≤ (PatternMatch.mk "b1" 70).confidence) :=
  (attemptPatternMatch_spec ideaBeach [patternBeach]).1 (PatternMatch.mk "b1" 70) (by decide)

-- ---- claim C9 --------------------------------------------------------------

theorem jsIndex_out_of_range {α : Type} (l : List α) (n : ℤ)
    (h : ¬ (1 ≤ n ∧ n ≤ (l.length : ℤ))) : jsIndex l (n - 1) = none := by
  unfold jsIndex
  by_cases h0 : 0 ≤ n - 1
  · rw [if_pos h0]
    apply List.get?_eq_none.2
    omega
  · rw [if_neg h0]

/-- Claim C9: in the full-LLM classification path, an assign_existing
response whose 1-based bucket number is out of range for the existing-bucket
list falls back to the first existing bucket, keeping the confidence of the
model (default 70), without erroring. -/
theorem classifyWithLLM_out_of_range (env : Env) (idea : Idea) (b0 : Bucket) (rest : List Bucket)
    (r : LLMClassifyResp) (n : ℤ) (w : World)
    (hresp : env.llmClassify = Except.ok r)
    (haction : r.action = "assign_existing")
    (hnum : r.existing_bucket_number = some n)
    (hout : ¬ (1 ≤ n ∧ n ≤ ((b0 :: rest).length : ℤ))) :
    classifyWithLLM env idea (b0 :: rest) w =
      (Except.ok { bucketId := b0.id, confidence := r.confidence.getD 70, isNewBucket := false }, w) := by
  unfold classifyWithLLM classifyWithLLMTry
  rw [hresp]
  simp [haction, hnum, jsIndex_out_of_range (b0 :: rest) n hout]

/-- Witness for C9: a one-bucket list and a response naming bucket 5 yield
the first bucket with the model confidence 88. -/
theorem classifyWithLLM_out_of_range_witness :
    classifyWithLLM envNine ideaA [bucketB] worldA =
      (Except.ok { bucketId := bucketB.id,
                   confidence := respOutOfRange.confidence.getD 70,
                   isNewBucket := false }, worldA) :=
  classifyWithLLM_out_of_range envNine ideaA bucketB [] respOutOfRange 5 worldA rfl rfl rfl
    (by simp)

-- ---- claim C8 --------------------------------------------------------------

theorem assignAllIdeas_ideas (ideas : List Idea) (bucketId : String) :
    ∀ w : World, (assignAllIdeas ideas bucketId w).ideas =
      w.ideas.map (fun j =>
        if j.id ∈ ideas.map (fun i => i.id) then
          { j with bucket_id := some bucketId, confidence := 50 } else j) := by
  induction ideas with
  | nil =>
    intro w
    simp [assignAllIdeas]
  | cons i rest ih =>
    intro w
    rw [assignAllIdeas, ih, updateIdeaAssign]
    rw [List.map_map]
    apply List.map_congr_left
    intro j _
    by_cases hc : j.id = i.id
    · by_cases hr : j.id ∈ rest.map (fun i => i.id)
      · simp [Function.comp, hc, hr]
      · simp [Function.comp, hc, hr]
    · have hbeq : (j.id == i.id) = false := beq_false_of_ne hc
      by_cases hr : j.id ∈ rest.map (fun i => i.id)
      · simp [Function.comp, hbeq, hc, hr]
      · simp [Function.comp, hbeq, hc, hr]

/-- Claim C8: when the LLM call for emergent buckets fails (or its response
cannot be parsed, which the model folds into the same error outcome), the
error does not escape: a single General bucket (gray, display order 0) is
created, every idea of the batch is assigned to it with confidence 50, and
that one bucket is returned. -/
theorem createEmergentBuckets_general_fallback (env : Env) (planId : String) (ideas : List Idea)
    (w : World) (e : JsErr) (hllm : env.llmEmergent = Except.error e) :
    ∃ w2 : World,
      createEmergentBuckets env planId ideas w =
        (Except.ok [{ id := mkBucketId w.nextId, plan_id := planId, title := "General",
                      description := some "Uncategorized ideas", accent_color := "gray",
                      display_order := 0, embedding := none }], w2) ∧
      ∀ j ∈ w2.ideas, j.id ∈ ideas.map (fun i => i.id) →
        j.bucket_id = some (mkBucketId w.nextId) ∧ j.confidence = 50 := by
  refine ⟨assignAllIdeas ideas (mkBucketId w.nextId)
      (World.mk
        (w.buckets ++ [Bucket.mk (mkBucketId w.nextId) planId "General"
          (some "Uncategorized ideas") "gray" 0 none])
        w.ideas w.cache w.now (w.nextId + 1)), ?_, ?_⟩
  · unfold createEmergentBuckets
    rw [hllm]
    rfl
  · intro j hj hmem
    rw [assignAllIdeas_ideas] at hj
    simp only [List.mem_map] at hj
    obtain ⟨j0, hj0, rfl⟩ := hj
    by_cases hc : ∃ a ∈ ideas, a.id = j0.id
    · rw [if_pos hc]
      exact ⟨rfl, rfl⟩
    · rw [if_neg hc] at hmem
      obtain ⟨a, ha, haid⟩ := List.mem_map.1 hmem
      exact absurd ⟨a, ha, haid⟩ hc

/-- Witness for C8 at a concrete failing environment, plan and batch. -/
theorem createEmergentBuckets_general_fallback_witness :
    ∃ w2 : World,
      createEmergentBuckets envDown "p1" [ideaA] worldA =
        (Except.ok [{ id := mkBucketId worldA.nextId, plan_id := "p1", title := "General",
                      description := some "Uncategorized ideas", accent_color := "gray",
                      display_order := 0, embedding := none }], w2) ∧
      ∀ j ∈ w2.ideas, j.id ∈ [ideaA].map (fun i => i.id) →
        j.bucket_id = some (mkBucketId worldA.nextId) ∧ j.confidence = 50 :=
  createEmergentBuckets_general_fallback envDown "p1" [ideaA] worldA
    (JsErr.thrown "provider down") rfl

-- ---- totality of the fallback chain (claim C1) -----------------------------

theorem classifyWithLLMCatch_total (idea : Idea) (b0 : Bucket) (rest : List Bucket) (w : World) :
    ∃ r, classifyWithLLMCatch idea (b0 :: rest) w = (Except.ok r, w) := by
  unfold classifyWithLLMCatch
  cases hpm : attemptPatternMatch idea (extractBucketPatterns (b0 :: rest)) with
  | some pm => exact ⟨_, rfl⟩
  | none => exact ⟨_, rfl⟩

theorem classifyWithLLM_total (env : Env) (idea : Idea) (b0 : Bucket) (rest : List Bucket) (w : World) :
    ∃ r w1, classifyWithLLM env idea (b0 :: rest) w = (Except.ok r, w1) := by
  unfold classifyWithLLM
  rcases h : classifyWithLLMTry env idea (b0 :: rest) w with ⟨exc, w1⟩
  cases exc with
  | ok r => exact ⟨r, w1, rfl⟩
  | error e =>
    obtain ⟨r, hr⟩ := classifyWithLLMCatch_total idea b0 rest w1
    exact ⟨r, w1, hr⟩

theorem createNewBucketForIdea_total (env : Env) (idea : Idea) (b0 : Bucket)
    (rest : List Bucket) (w : World) :
    ∃ out w1, createNewBucketForIdea env idea (b0 :: rest) w = (Except.ok out, w1) := by
  unfold createNewBucketForIdea
  cases hnb : env.llmNewBucket with
  | error e =>
    obtain ⟨r, w1, hr⟩ := classifyWithLLM_total env idea b0 rest w
    refine ⟨(r.bucketId, r.confidence), w1, ?_⟩
    dsimp only
    rw [hr]
  | ok spec =>
    by_cases ht : spec.title = ""
    · obtain ⟨r, w1, hr⟩ := classifyWithLLM_total env idea b0 rest w
      refine ⟨(r.bucketId, r.confidence), w1, ?_⟩
      dsimp only
      rw [if_pos ht, hr]
    · dsimp only
      rw [if_neg ht]
      exact ⟨_, _, rfl⟩

theorem classifyWithLLMTieBreaker_total (env : Env) (t : ScoredBucket)
    (trest : List ScoredBucket) (w : World) :
    ∃ s, classifyWithLLMTieBreaker env (t :: trest) w = (Except.ok s, w) := by
  unfold classifyWithLLMTieBreaker
  dsimp only
  by_cases hr : trest.length = 0
  · rw [if_pos hr]
    exact ⟨_, rfl⟩
  · rw [if_neg hr]
    cases htb : env.llmTieBreak with
    | error e => exact ⟨_, rfl⟩
    | ok resp =>
      dsimp only
      cases hidx : jsIndex (t :: trest)
          (match resp.chosen_bucket_number with | some n => n - 1 | none => 0) with
      | some chosen => exact ⟨_, rfl⟩
      | none => exact ⟨_, rfl⟩

theorem tieSet_nonempty_of_length (sorted : List ScoredBucket) (bestSim : ℝ)
    (h : 1 < (tieSet sorted bestSim).length) :
    ∃ t trest, tieSet sorted bestSim = t :: trest := by
  cases hT : tieSet sorted bestSim with
  | nil => rw [hT] at h; simp at h
  | cons a l => exact ⟨a, l, rfl⟩

theorem routeScored_total (env : Env) (idea : Idea) (b0 : Bucket) (rest : List Bucket)
    (x : ScoredBucket) (srest : List ScoredBucket) (w : World) :
    ∃ r w1, routeScored env idea (b0 :: rest) (x :: srest) w = (Except.ok r, w1) := by
  unfold routeScored
  dsimp only
  by_cases hlow : x.similarity < MIN_SIMILARITY
  · rw [if_pos hlow]
    obtain ⟨out, w1, hout⟩ := createNewBucketForIdea_total env idea b0 rest w
    exact ⟨_, w1, by rw [hout]⟩
  · rw [if_neg hlow]
    by_cases htie : 1 < (tieSet (x :: srest) x.similarity).length
    · rw [if_pos htie]
      obtain ⟨t, trest, hT⟩ := tieSet_nonempty_of_length (x :: srest) x.similarity htie
      rw [hT]
      obtain ⟨s, hs⟩ := classifyWithLLMTieBreaker_total env t trest w
      rw [hs]
      exact ⟨_, _, rfl⟩
    · rw [if_neg htie]
      exact ⟨_, _, rfl⟩

theorem classifyEmbeddingPath_shape (env : Env) (idea : Idea) (b0 : Bucket)
    (rest : List Bucket) (w : World) :
    (∃ r w1, classifyEmbeddingPath env idea (b0 :: rest) w = (Except.ok r, w1)) ∨
    (∃ e w1, classifyEmbeddingPath env idea (b0 :: rest) w = (Except.error e, w1)) := by
  unfold classifyEmbeddingPath
  rcases hget : getBucketEmbeddingsCached env idea.plan_id w with ⟨m, w1⟩
  dsimp only
  by_cases hm : m.length = 0
  · rw [if_pos hm]
    obtain ⟨r, w2, hr⟩ := classifyWithLLM_total env idea b0 rest w1
    exact Or.inl ⟨r, w2, hr⟩
  · rw [if_neg hm]
    cases hemb : env.embed (idea.title ++ "\n" ++ idea.description.getD "") with
    | error e => exact Or.inr ⟨e, w1, rfl⟩
    | ok ideaEmbedding =>
      dsimp only
      by_cases hs : (scoreBuckets ideaEmbedding m (b0 :: rest)).length = 0
      · rw [if_pos hs]
        obtain ⟨r, w2, hr⟩ := classifyWithLLM_total env idea b0 rest w1
        exact Or.inl ⟨r, w2, hr⟩
      · rw [if_neg hs]
        have hne : scoreBuckets ideaEmbedding m (b0 :: rest) ≠ [] := by
          intro hnil
          rw [hnil] at hs
          exact hs rfl
        obtain ⟨x, srest, hsx⟩ : ∃ x srest,
            sortScoredDesc (scoreBuckets ideaEmbedding m (b0 :: rest)) = x :: srest := by
          cases hsort : sortScoredDesc (scoreBuckets ideaEmbedding m (b0 :: rest)) with
          | nil =>
            exfalso
            apply hne
            cases hsc : scoreBuckets ideaEmbedding m (b0 :: rest) with
            | nil => rfl
            | cons a l =>
              rw [hsc] at hsort
              unfold sortScoredDesc at hsort
              cases hI : insertScoredDesc a (sortScoredDesc l) with
              | nil =>
                exfalso
                cases hRec : sortScoredDesc l with
                | nil => rw [hRec] at hI; unfold insertScoredDesc at hI; exact List.noConfusion hI
                | cons y ys =>
                  rw [hRec] at hI
                  unfold insertScoredDesc at hI
                  by_cases hc : y.similarity ≤ a.similarity
                  · rw [if_pos hc] at hI; exact List.noConfusion hI
                  · rw [if_neg hc] at hI; exact List.noConfusion hI
              | cons y ys => rw [hI] at hsort; exact List.noConfusion hsort
          | cons x srest => exact ⟨x, srest, rfl⟩
        rw [hsx]
        obtain ⟨r, w2, hr⟩ := routeScored_total env idea b0 rest x srest w1
        exact Or.inl ⟨r, w2, hr⟩

/-- Claim C1 (amended to a nonempty existing-bucket list): for every idea,
every nonempty existing-bucket list and every outcome of the embedding
provider, the LLM and the response parser, classifyIdeaIntoBucket returns a
ClassificationResult and never raises; and when the embedding provider, the
LLM classification and the pattern-match tier all fail, the result is the
first existing bucket with confidence 40. -/
theorem classifyIdeaIntoBucket_total_and_default (env : Env) (idea : Idea) (b0 : Bucket)
    (rest : List Bucket) (w : World) :
    (∃ r w1, classifyIdeaIntoBucket env idea (b0 :: rest) w = (Except.ok r, w1)) ∧
    ((∀ t, ∃ e, env.embed t = Except.error e) →
     (∃ e, env.llmClassify = Except.error e) →
     attemptPatternMatch idea (extractBucketPatterns (b0 :: rest)) = none →
     ∃ w1, classifyIdeaIntoBucket env idea (b0 :: rest) w =
       (Except.ok { bucketId := b0.id, confidence := 40, isNewBucket := false }, w1)) := by
  constructor
  · unfold classifyIdeaIntoBucket
    by_cases hguard : env.useEmbeddings = false ∨ (b0 :: rest).length = 0
    · rw [if_pos hguard]
      exact classifyWithLLM_total env idea b0 rest w
    · rw [if_neg hguard]
      rcases classifyEmbeddingPath_shape env idea b0 rest w with ⟨r, w1, hr⟩ | ⟨e, w1, hr⟩
      · exact ⟨r, w1, by rw [hr]⟩
      · obtain ⟨r, w2, hr2⟩ := classifyWithLLM_total env idea b0 rest w1
        refine ⟨r, w2, ?_⟩
        rw [hr]
        exact hr2
  · intro hembed hllm hpat
    obtain ⟨e0, hllm⟩ := hllm
    have hfb : ∀ w0 : World, classifyWithLLM env idea (b0 :: rest) w0 =
        (Except.ok { bucketId := b0.id, confidence := 40, isNewBucket := false }, w0) := by
      intro w0
      unfold classifyWithLLM classifyWithLLMTry
      rw [hllm]
      dsimp only
      unfold classifyWithLLMCatch
      rw [hpat]
    unfold classifyIdeaIntoBucket
    by_cases hguard : env.useEmbeddings = false ∨ (b0 :: rest).length = 0
    · rw [if_pos hguard]
      exact ⟨w, hfb w⟩
    · rw [if_neg hguard]
      unfold classifyEmbeddingPath
      rcases hget : getBucketEmbeddingsCached env idea.plan_id w with ⟨m, w1⟩
      dsimp only
      by_cases hm : m.length = 0
      · rw [if_pos hm, hfb w1]
        exact ⟨w1, rfl⟩
      · rw [if_neg hm]
        obtain ⟨e1, hemb⟩ := hembed (idea.title ++ "\n" ++ idea.description.getD "")
        rw [hemb]
        dsimp only
        rw [hfb w1]
        exact ⟨w1, rfl⟩

/-- Witness for the amended C1 at a concrete one-bucket plan with every
provider failing: the classifier returns, and returns the first bucket with
confidence 40. -/
theorem classifyIdeaIntoBucket_total_and_default_witness :
    (∃ r w1, classifyIdeaIntoBucket envDown ideaA [bucketB] worldA = (Except.ok r, w1)) ∧
    (∃ w1, classifyIdeaIntoBucket envDown ideaA [bucketB] worldA =
      (Except.ok { bucketId := bucketB.id, confidence := 40, isNewBucket := false }, w1)) :=
  ⟨(classifyIdeaIntoBucket_total_and_default envDown ideaA bucketB [] worldA).1,
   (classifyIdeaIntoBucket_total_and_default envDown ideaA bucketB [] worldA).2
     (fun _ => ⟨JsErr.thrown "provider down", rfl⟩) ⟨JsErr.thrown "provider down", rfl⟩ rfl⟩

/-- Claim C1 counterexample: with an empty existing-bucket list and a failing
LLM, the catch block of classifyWithLLM dereferences element 0 of the empty
list, and the TypeError escapes to the caller, contradicting the claim as
stated for every list of existing buckets. -/
theorem classifyIdeaIntoBucket_empty_buckets_raises :
    (classifyIdeaIntoBucket envDown ideaA [] worldA).1 = Except.error JsErr.typeError := rfl

-- ---- claims C5 and C6: the router decisions --------------------------------

theorem bestEffortEmbed_fst_id (env : Env) (b : Bucket) (w : World) :
    (bestEffortEmbed env b w).1.id = b.id := by
  unfold bestEffortEmbed
  by_cases ht : bucketHeaderText b = ""
  · rw [if_pos ht]
  · rw [if_neg ht]
    cases h : env.embed (bucketHeaderText b) with
    | error e => rfl
    | ok v => rfl

theorem createNewBucketForIdea_success (env : Env) (idea : Idea) (existingBuckets : List Bucket)
    (w : World) (spec : NewBucketSpec)
    (hnb : env.llmNewBucket = Except.ok spec) (ht : ¬ spec.title = "") :
    ∃ w1, createNewBucketForIdea env idea existingBuckets w =
      (Except.ok (mkBucketId w.nextId, 75), w1) := by
  unfold createNewBucketForIdea
  rw [hnb]
  dsimp only
  rw [if_neg ht, bestEffortEmbed_fst_id]
  exact ⟨_, rfl⟩

/-- Claim C6: when every scored similarity is strictly below MIN_SIMILARITY,
the router creates a new bucket through the LLM new-category proposal rather
than forcing an assignment (the result always carries isNewBucket = true),
and on success of the proposal the result is the freshly created bucket with
confidence fixed at 75. -/
theorem routeScored_no_match_creates_new (env : Env) (idea : Idea) (b0 : Bucket)
    (rest : List Bucket) (x : ScoredBucket) (srest : List ScoredBucket) (w : World)
    (hbelow : ∀ a ∈ x :: srest, a.similarity < MIN_SIMILARITY) :
    (∃ r w1, routeScored env idea (b0 :: rest) (x :: srest) w = (Except.ok r, w1) ∧
       r.isNewBucket = true) ∧
    (∀ spec, env.llmNewBucket = Except.ok spec → ¬ spec.title = "" →
      ∃ w1, routeScored env idea (b0 :: rest) (x :: srest) w =
        (Except.ok { bucketId := mkBucketId w.nextId, confidence := 75,
                     isNewBucket := true }, w1)) := by
  have hx : x.similarity < MIN_SIMILARITY := hbelow x (List.mem_cons_self x srest)
  constructor
  · unfold routeScored
    dsimp only
    rw [if_pos hx]
    obtain ⟨out, w1, hout⟩ := createNewBucketForIdea_total env idea b0 rest w
    rw [hout]
    exact ⟨_, w1, rfl, rfl⟩
  · intro spec hnb ht
    obtain ⟨w1, hsucc⟩ := createNewBucketForIdea_success env idea (b0 :: rest) w spec hnb ht
    unfold routeScored
    dsimp only
    rw [if_pos hx, hsucc]
    exact ⟨w1, rfl⟩

theorem mem_tieSet (sorted : List ScoredBucket) (bestSim : ℝ) (a : ScoredBucket) :
    a ∈ tieSet sorted bestSim ↔ a ∈ sorted ∧ bestSim - a.similarity ≤ TIE_THRESHOLD := by
  simp [tieSet, List.mem_filter]

theorem jsIndex_mem {α : Type} (l : List α) (i : ℤ) (x : α) (h : jsIndex l i = some x) :
    x ∈ l := by
  unfold jsIndex at h
  by_cases h0 : 0 ≤ i
  · rw [if_pos h0] at h
    exact List.get?_mem h
  · rw [if_neg h0] at h
    exact Option.noConfusion h

theorem find?_id_eq (s : List ScoredBucket) (e : ScoredBucket) (he : e ∈ s)
    (hnodup : (s.map (fun a => a.bucket.id)).Nodup) :
    s.find? (fun a => a.bucket.id == e.bucket.id) = some e := by
  induction s with
  | nil => cases he
  | cons a s ih =>
    rcases List.mem_cons.1 he with rfl | he'
    · exact List.find?_cons_of_pos _ (by simp)
    · have hne : ¬ ((fun a : ScoredBucket => a.bucket.id == e.bucket.id) a = true) := by
        simp only [beq_iff_eq]
        intro hcontra
        have h1 : e.bucket.id ∈ s.map (fun a => a.bucket.id) :=
          List.mem_map_of_mem _ he'
        have h2 : a.bucket.id ∉ s.map (fun a => a.bucket.id) :=
          (List.nodup_cons.1 hnodup).1
        rw [hcontra] at h2
        exact h2 h1
      rw [List.find?_cons_of_neg s hne]
      exact ih he' (List.nodup_cons.1 hnodup).2

theorem tieBreaker_picks (env : Env) (tied : List ScoredBucket) (w : World) (n : ℤ)
    (e : ScoredBucket) (hlen : 1 < tied.length)
    (htb : env.llmTieBreak = Except.ok { chosen_bucket_number := some n })
    (hidx : jsIndex tied (n - 1) = some e) :
    classifyWithLLMTieBreaker env tied w = (Except.ok e.bucket.id, w) := by
  obtain ⟨t, trest, rfl⟩ : ∃ t trest, tied = t :: trest := by
    cases tied with
    | nil => simp at hlen
    | cons t trest => exact ⟨t, trest, rfl⟩
  unfold classifyWithLLMTieBreaker
  dsimp only
  have hr : ¬ trest.length = 0 := by
    simp only [List.length_cons] at hlen
    omega
  rw [if_neg hr, htb]
  dsimp only
  rw [hidx]

/-- Claim C5: when the best score reaches MIN_SIMILARITY, the tie set holds
exactly the scored buckets within TIE_THRESHOLD of the best with an
inclusive boundary (a difference of exactly 0.05 is in), and whenever the
tie set holds more than one bucket the outcome is the bucket selected by the
LLM tie-breaker (with the confidence mapped from its similarity), never an
arbitrary pick. -/
theorem routeScored_tie_inclusive_and_llm (env : Env) (idea : Idea) (b0 : Bucket)
    (rest : List Bucket) (x : ScoredBucket) (srest : List ScoredBucket) (w : World)
    (e : ScoredBucket) (n : ℤ)
    (hbest : MIN_SIMILARITY ≤ x.similarity) :
    (∀ a ∈ x :: srest, (a ∈ tieSet (x :: srest) x.similarity ↔
        x.similarity - a.similarity ≤ TIE_THRESHOLD)) ∧
    (1 < (tieSet (x :: srest) x.similarity).length →
     env.llmTieBreak = Except.ok { chosen_bucket_number := some n } →
     jsIndex (tieSet (x :: srest) x.similarity) (n - 1) = some e →
     ((x :: srest).map (fun a => a.bucket.id)).Nodup →
     routeScored env idea (b0 :: rest) (x :: srest) w =
       (Except.ok { bucketId := e.bucket.id, confidence := similarityToConfidence e.similarity,
                    isNewBucket := false }, w)) := by
  constructor
  · intro a ha
    rw [mem_tieSet]
    exact ⟨fun h => h.2, fun h => ⟨ha, h⟩⟩
  · intro htie htb hidx hnodup
    have he : e ∈ x :: srest :=
      ((mem_tieSet (x :: srest) x.similarity e).1 (jsIndex_mem _ _ _ hidx)).1
    unfold routeScored
    dsimp only
    rw [if_neg (not_lt.2 hbest), if_pos htie,
      tieBreaker_picks env (tieSet (x :: srest) x.similarity) w n e htie htb hidx]
    dsimp only
    rw [find?_id_eq (x :: srest) e he hnodup]
    rfl

/-- Witness for C6: one scored bucket at 0.3 (below 0.35) with a successful
proposal yields the fresh bucket with confidence 75 and isNewBucket true. -/
theorem routeScored_no_match_creates_new_witness :
    (∃ r w1, routeScored envNew ideaA [bucketB] [scoredLow] worldA = (Except.ok r, w1) ∧
       r.isNewBucket = true) ∧
    (∃ w1, routeScored envNew ideaA [bucketB] [scoredLow] worldA =
      (Except.ok { bucketId := mkBucketId worldA.nextId, confidence := 75,
                   isNewBucket := true }, w1)) :=
  ⟨(routeScored_no_match_creates_new envNew ideaA bucketB [] scoredLow [] worldA
      (by
        intro a ha
        simp only [List.mem_singleton] at ha
        subst ha
        norm_num [scoredLow, MIN_SIMILARITY])).1,
   (routeScored_no_match_creates_new envNew ideaA bucketB [] scoredLow [] worldA
      (by
        intro a ha
        simp only [List.mem_singleton] at ha
        subst ha
        norm_num [scoredLow, MIN_SIMILARITY])).2 specNew rfl (by decide)⟩

/-- Witness for C5: two scored buckets whose similarities differ by exactly
0.05 are both in the tie set, and the tie-breaker pick of number 2 is
honoured with the mapped confidence. -/
theorem routeScored_tie_inclusive_and_llm_witness :
    routeScored envTie ideaA [bucketB] [scoredX, scoredY] worldA =
      (Except.ok { bucketId := scoredY.bucket.id,
                   confidence := similarityToConfidence scoredY.similarity,
                   isNewBucket := false }, worldA) := by
  have hts : tieSet [scoredX, scoredY] scoredX.similarity = [scoredX, scoredY] := by
    simp only [tieSet, List.filter, scoredX, scoredY, TIE_THRESHOLD]
    norm_num
  exact (routeScored_tie_inclusive_and_llm envTie ideaA bucketB [] scoredX [scoredY] worldA
      scoredY 2 (by norm_num [scoredX, MIN_SIMILARITY])).2
    (by rw [hts]; norm_num)
    rfl
    (by rw [hts]; rfl)
    (by decide)

-- ---- claim C10: cache population and hit behaviour -------------------------

theorem getCached_snd (w : World) (k : String) :
    (getCached w k).2.now = w.now ∧ (getCached w k).2.buckets = w.buckets := by
  unfold getCached
  cases cacheLookup w.cache k with
  | none => exact ⟨rfl, rfl⟩
  | some de =>
    rcases de with ⟨d, exp⟩
    dsimp only
    by_cases h : exp < w.now
    · rw [if_pos h]
      exact ⟨rfl, rfl⟩
    · rw [if_neg h]
      exact ⟨rfl, rfl⟩

theorem regenerateEntry_snd (env : Env) (b : Bucket) (w : World) :
    (regenerateEntry env b w).2.cache = w.cache ∧ (regenerateEntry env b w).2.now = w.now := by
  unfold regenerateEntry
  by_cases ht : buildBucketEmbeddingText b = ""
  · rw [if_pos ht]
    exact ⟨rfl, rfl⟩
  · rw [if_neg ht]
    cases env.embed (buildBucketEmbeddingText b) with
    | error e => exact ⟨rfl, rfl⟩
    | ok v =>
      dsimp only
      by_cases hv : v.length = 1536
      · rw [if_pos hv]
        exact ⟨rfl, rfl⟩
      · rw [if_neg hv]
        exact ⟨rfl, rfl⟩

theorem bucketMapStep_snd (env : Env) (b : Bucket) (w : World) :
    (bucketMapStep env b w).2.cache = w.cache ∧ (bucketMapStep env b w).2.now = w.now := by
  unfold bucketMapStep
  cases b.embedding with
  | none => exact regenerateEntry_snd env b w
  | some v =>
    dsimp only
    by_cases hv : v.length = 1536
    · rw [if_pos hv]
      exact ⟨rfl, rfl⟩
    · rw [if_neg hv]
      exact regenerateEntry_snd env b w

theorem buildBucketMap_snd (env : Env) (buckets : List Bucket) :
    ∀ w, (buildBucketMap env buckets w).2.cache = w.cache ∧
      (buildBucketMap env buckets w).2.now = w.now := by
  induction buckets with
  | nil => intro w; exact ⟨rfl, rfl⟩
  | cons b rest ih =>
    intro w
    unfold buildBucketMap
    rcases hstep : bucketMapStep env b w with ⟨entry, w1⟩
    dsimp only
    rcases hm : buildBucketMap env rest w1 with ⟨m, w2⟩
    dsimp only
    have h1 := bucketMapStep_snd env b w
    rw [hstep] at h1
    have h2 := ih w1
    rw [hm] at h2
    exact ⟨h2.1.trans h1.1, h2.2.trans h1.2⟩

theorem cacheLookup_cacheSet_self (c : List CacheEntry) (k : String) (d : BucketEmbeddingMap)
    (exp : ℤ) : cacheLookup (cacheSet c k d exp) k = some (d, exp) := by
  simp [cacheLookup, cacheSet]

/-- Claim C10: on a cache miss, getBucketEmbeddingsCached stores whatever map
it built (the empty map included) under the plan key with the full 5-minute
TTL; while a stored entry is valid, any later call returns that entry
untouched, for every provider environment and every storage content; and a
cached empty map makes classifyIdeaIntoBucket go LLM-only. -/
theorem getBucketEmbeddingsCached_store_and_hit (env env' : Env) (planId : String) (idea : Idea)
    (b0 : Bucket) (rest : List Bucket) (w w' : World) (m : BucketEmbeddingMap) (exp : ℤ) :
    ((getCached w (bucketCacheKey planId)).1 = none →
      cacheLookup (getBucketEmbeddingsCached env planId w).2.cache (bucketCacheKey planId) =
        some ((getBucketEmbeddingsCached env planId w).1, w.now + BUCKET_CACHE_TTL_MS)) ∧
    (cacheLookup w'.cache (bucketCacheKey planId) = some (m, exp) → ¬ exp < w'.now →
      getBucketEmbeddingsCached env' planId w' = (m, w')) ∧
    (cacheLookup w'.cache (bucketCacheKey idea.plan_id) = some ([], exp) → ¬ exp < w'.now →
      env'.useEmbeddings = true →
      classifyIdeaIntoBucket env' idea (b0 :: rest) w' =
        classifyWithLLM env' idea (b0 :: rest) w') ∧
    ((getCached w (bucketCacheKey planId)).1 = none → listBucketsByPlanId w planId = [] →
      (getBucketEmbeddingsCached env planId w).1 = []) := by
  have hhit : ∀ (env0 : Env) (pid : String) (w0 : World) (m0 : BucketEmbeddingMap) (e0 : ℤ),
      cacheLookup w0.cache (bucketCacheKey pid) = some (m0, e0) → ¬ e0 < w0.now →
      getBucketEmbeddingsCached env0 pid w0 = (m0, w0) := by
    intro env0 pid w0 m0 e0 hl hv
    unfold getBucketEmbeddingsCached getCached
    dsimp only
    rw [hl]
    dsimp only
    rw [if_neg hv]
  refine ⟨?_, fun hl hv => hhit env' planId w' m exp hl hv, ?_, ?_⟩
  · intro hmiss
    unfold getBucketEmbeddingsCached
    dsimp only
    rcases hg : getCached w (bucketCacheKey planId) with ⟨o, w1⟩
    have ho : o = none := by
      have := congrArg Prod.fst hg
      rw [hmiss] at this
      exact this.symm
    subst ho
    dsimp only
    rcases hb : buildBucketMap env (listBucketsByPlanId w1 planId) w1 with ⟨m1, w2⟩
    dsimp only
    simp only [setCache]
    rw [cacheLookup_cacheSet_self]
    have hn2 : w2.now = w1.now := by
      have := (buildBucketMap_snd env (listBucketsByPlanId w1 planId) w1).2
      rw [hb] at this
      exact this
    have hn1 : w1.now = w.now := by
      have := (getCached_snd w (bucketCacheKey planId)).1
      rw [hg] at this
      exact this
    rw [hn2, hn1]
  · intro hl hv huse
    have hget := hhit env' idea.plan_id w' [] exp hl hv
    have hpath : classifyEmbeddingPath env' idea (b0 :: rest) w' =
        classifyWithLLM env' idea (b0 :: rest) w' := by
      unfold classifyEmbeddingPath
      rw [hget]
      rfl
    obtain ⟨r, w1, hr⟩ := classifyWithLLM_total env' idea b0 rest w'
    unfold classifyIdeaIntoBucket
    have hguard : ¬ (env'.useEmbeddings = false ∨ (b0 :: rest).length = 0) := by
      simp [huse]
    rw [if_neg hguard, hpath, hr]
  · intro hmiss hempty
    unfold getBucketEmbeddingsCached
    dsimp only
    rcases hg : getCached w (bucketCacheKey planId) with ⟨o, w1⟩
    have ho : o = none := by
      have := congrArg Prod.fst hg
      rw [hmiss] at this
      exact this.symm
    subst ho
    dsimp only
    have hb1 : w1.buckets = w.buckets := by
      have := (getCached_snd w (bucketCacheKey planId)).2
      rw [hg] at this
      exact this
    have hlist : listBucketsByPlanId w1 planId = [] := by
      unfold listBucketsByPlanId at hempty ⊢
      rw [hb1]
      exact hempty
    rw [hlist]
    rfl

/-- Witness for C10: an empty bucket-less world stores the empty map with the
full TTL; a world with a valid cached empty map is served from the cache and
classification reduces to classifyWithLLM. -/
theorem getBucketEmbeddingsCached_store_and_hit_witness :
    (cacheLookup (getBucketEmbeddingsCached envDown "p1" worldA).2.cache (bucketCacheKey "p1") =
      some ((getBucketEmbeddingsCached envDown "p1" worldA).1, worldA.now + BUCKET_CACHE_TTL_MS)) ∧
    (getBucketEmbeddingsCached envDown "p1" worldHit = ([], worldHit)) ∧
    (classifyIdeaIntoBucket envDown ideaA [bucketB] worldHit =
      classifyWithLLM envDown ideaA [bucketB] worldHit) ∧
    ((getBucketEmbeddingsCached envDown "p1" worldA).1 = []) := by
  obtain ⟨h1, h2, h3, h4⟩ :=
    getBucketEmbeddingsCached_store_and_hit envDown envDown "p1" ideaA bucketB [] worldA
      worldHit [] 100
  exact ⟨h1 rfl, h2 rfl (by norm_num [worldHit]), h3 rfl (by norm_num [worldHit]) rfl,
    h4 rfl rfl⟩

-- ---- claim C2: invalidation by bucket mutations -----------------------------

theorem cacheLookup_cacheDelete (c : List CacheEntry) (k : String) :
    cacheLookup (cacheDelete c k) k = none := by
  simp only [cacheLookup, cacheDelete, Option.map_eq_none', List.find?_eq_none]
  intro x hx
  have h := (List.mem_filter.1 hx).2
  simp only [Bool.not_eq_true'] at h
  simp [h]

theorem postBucketsRoute_invalidates (env : Env) (planId title : String)
    (description accentColor : Option String) (w : World) :
    cacheLookup (postBucketsRoute env planId title description accentColor w).2.cache
      (bucketCacheKey planId) = none := by
  unfold postBucketsRoute invalidateCache
  dsimp only
  exact cacheLookup_cacheDelete _ _

theorem patchBucketRoute_invalidates (env : Env) (bucketId : String)
    (titlePatch descPatch : Option String) (w : World) (b2 : Bucket) (w2 : World)
    (hp : (titlePatch.isSome || descPatch.isSome) = true)
    (h : patchBucketRoute env bucketId titlePatch descPatch w = (Except.ok b2, w2)) :
    cacheLookup w2.cache (bucketCacheKey b2.plan_id) = none := by
  unfold patchBucketRoute at h
  cases hu : updateBucket w bucketId (applyBucketPatch titlePatch descPatch) with
  | error e =>
    rw [hu] at h
    dsimp only at h
    exact absurd (congrArg Prod.fst h) (by simp)
  | ok bw =>
    rcases bw with ⟨bucket, w1⟩
    rw [hu] at h
    dsimp only at h
    rw [if_pos hp] at h
    have hb2 := congrArg Prod.fst h
    have hw2 := congrArg Prod.snd h
    dsimp only at hb2 hw2
    have hb2' : b2 = _ := (Except.ok.inj hb2.symm)
    rw [← hw2, hb2']
    exact cacheLookup_cacheDelete _ _

/-- Claim C2 (amended): the bucket-create route and the bucket-update route
on a title or description change synchronously invalidate the plan
bucket-embeddings cache entry, and the create, fetch, retitle, refetch round
trip yields a vector derived from the new title; emergent bucket creation is
excluded, since its General fallback creates a bucket without invalidating. -/
theorem bucket_routes_invalidate_and_roundtrip (env : Env) (t1 t2 planId title bucketId : String)
    (description accentColor titlePatch descPatch : Option String) (w : World)
    (v1 v2 : List ℝ) :
    (cacheLookup (postBucketsRoute env planId title description accentColor w).2.cache
      (bucketCacheKey planId) = none) ∧
    ((titlePatch.isSome || descPatch.isSome) = true →
      ∀ b2 w2, patchBucketRoute env bucketId titlePatch descPatch w = (Except.ok b2, w2) →
        cacheLookup w2.cache (bucketCacheKey b2.plan_id) = none) ∧
    (¬ jsTrim t1 = "" → ¬ jsTrim t2 = "" →
     env.embed (jsTrim t1) = Except.ok v1 → v1.length = 1536 →
     env.embed (jsTrim t2) = Except.ok v2 → v2.length = 1536 →
     ∃ b w1 m1 wc b2 w2 m2 w3,
       postBucketsRoute env "p1" t1 none none worldA = (b, w1) ∧
       getBucketEmbeddingsCached env "p1" w1 = (m1, wc) ∧
       mapLookup m1 b.id = some v1 ∧
       patchBucketRoute env b.id (some t2) none wc = (Except.ok b2, w2) ∧
       b2.title = t2 ∧
       getBucketEmbeddingsCached env "p1" w2 = (m2, w3) ∧
       mapLookup m2 b.id = some v2) := by
  refine ⟨postBucketsRoute_invalidates env planId title description accentColor w,
    fun hp b2 w2 h => patchBucketRoute_invalidates env bucketId titlePatch descPatch w b2 w2 hp h,
    ?_⟩
  intro ht1 ht2 he1 hv1 he2 hv2
  have hpost : postBucketsRoute env "p1" t1 none none worldA =
      (Bucket.mk (mkBucketId 0) "p1" t1 none "gray" 0 (some v1),
       World.mk [Bucket.mk (mkBucketId 0) "p1" t1 none "gray" 0 (some v1)] [] [] 0 1) := by
    unfold postBucketsRoute getNextDisplayOrder createBucket invalidateCache cacheDelete worldA
    dsimp only
    rw [if_neg ht1, he1]
    rfl
  have hget1 : getBucketEmbeddingsCached env "p1"
      (World.mk [Bucket.mk (mkBucketId 0) "p1" t1 none "gray" 0 (some v1)] [] [] 0 1) =
      ([(mkBucketId 0, v1)],
       World.mk [Bucket.mk (mkBucketId 0) "p1" t1 none "gray" 0 (some v1)] []
         [("bucket-embeddings:p1", [(mkBucketId 0, v1)], 0 + BUCKET_CACHE_TTL_MS)] 0 1) := by
    simp only [getBucketEmbeddingsCached, getCached, listBucketsByPlanId, sortByDisplayOrder,
      insertByOrder, buildBucketMap, bucketMapStep, setCache, cacheSet, cacheDelete,
      cacheLookup, bucketCacheKey, List.find?_nil, Option.map_none', List.filter_cons,
      List.filter_nil, beq_self_eq_true, if_true, List.find?]
    rw [if_pos hv1]
    rfl
  have hpatch : patchBucketRoute env (mkBucketId 0) (some t2) none
      (World.mk [Bucket.mk (mkBucketId 0) "p1" t1 none "gray" 0 (some v1)] []
        [("bucket-embeddings:p1", [(mkBucketId 0, v1)], 0 + BUCKET_CACHE_TTL_MS)] 0 1) =
      (Except.ok (Bucket.mk (mkBucketId 0) "p1" t2 none "gray" 0 (some v2)),
       World.mk [Bucket.mk (mkBucketId 0) "p1" t2 none "gray" 0 (some v2)] [] [] 0 1) := by
    unfold patchBucketRoute updateBucket applyBucketPatch bucketHeaderText invalidateCache
      cacheDelete bucketCacheKey
    dsimp only
    simp only [List.find?, beq_self_eq_true, Option.getD_some, List.map_cons, List.map_nil,
      if_true, Option.isSome_some, Bool.true_or]
    rw [if_neg ht2, he2]
    dsimp only
    simp only [List.find?, beq_self_eq_true, List.map_cons, List.map_nil, List.filter_cons,
      List.filter_nil, beq_self_eq_true, Bool.not_true, if_false]
    rfl
  have hget2 : getBucketEmbeddingsCached env "p1"
      (World.mk [Bucket.mk (mkBucketId 0) "p1" t2 none "gray" 0 (some v2)] [] [] 0 1) =
      ([(mkBucketId 0, v2)],
       World.mk [Bucket.mk (mkBucketId 0) "p1" t2 none "gray" 0 (some v2)] []
         [("bucket-embeddings:p1", [(mkBucketId 0, v2)], 0 + BUCKET_CACHE_TTL_MS)] 0 1) := by
    simp only [getBucketEmbeddingsCached, getCached, listBucketsByPlanId, sortByDisplayOrder,
      insertByOrder, buildBucketMap, bucketMapStep, setCache, cacheSet, cacheDelete,
      cacheLookup, bucketCacheKey, List.find?_nil, Option.map_none', List.filter_cons,
      List.filter_nil, beq_self_eq_true, if_true, List.find?]
    rw [if_pos hv2]
    rfl
  refine ⟨_, _, _, _, _, _, _, _, hpost, hget1, ?_, hpatch, rfl, hget2, ?_⟩
  · simp [mapLookup, List.find?]
  · simp [mapLookup, List.find?]

/-- Witness for the amended C2 at a concrete environment and titles: the
create route leaves no cache entry, and the round trip ends with the vector
of the new title Drinks. -/
theorem bucket_routes_invalidate_and_roundtrip_witness :
    (cacheLookup (postBucketsRoute envEmbed "p1" "Food" none none worldA).2.cache
      (bucketCacheKey "p1") = none) ∧
    (∃ b w1 m1 wc b2 w2 m2 w3,
       postBucketsRoute envEmbed "p1" "Food" none none worldA = (b, w1) ∧
       getBucketEmbeddingsCached envEmbed "p1" w1 = (m1, wc) ∧
       mapLookup m1 b.id = some vFood ∧
       patchBucketRoute envEmbed b.id (some "Drinks") none wc = (Except.ok b2, w2) ∧
       b2.title = "Drinks" ∧
       getBucketEmbeddingsCached envEmbed "p1" w2 = (m2, w3) ∧
       mapLookup m2 b.id = some vDrinks) :=
  ⟨(bucket_routes_invalidate_and_roundtrip envEmbed "Food" "Drinks" "p1" "Food" "b"
      none none none none worldA vFood vDrinks).1,
   (bucket_routes_invalidate_and_roundtrip envEmbed "Food" "Drinks" "p1" "Food" "b"
      none none none none worldA vFood vDrinks).2.2
     (by decide) (by decide) rfl (by rw [vFood, List.length_cons, List.length_replicate])
     rfl (by rw [vDrinks, List.length_cons, List.length_replicate])⟩

/-- Claim C2 counterexample: the General fallback of createEmergentBuckets
creates a bucket in plan p1 while the live cache entry of that plan survives
untouched, so not every bucket-creating operation invalidates. -/
theorem emergent_fallback_skips_invalidation :
    (createEmergentBuckets envDown "p1" [] worldStale).2.cache = worldStale.cache ∧
    (createEmergentBuckets envDown "p1" [] worldStale).2.buckets.map (fun b => b.plan_id) =
      ["p1"] :=
  ⟨rfl, rfl⟩

end CollabApp
